import Mathlib

set_option maxRecDepth 8192

/-!
# Verification of the cwdbg host (src/host)

Shallow embedding of the host side of the cwdbg debugger, together with
theorems that settle the claims of the specification against the code.
Bytes are modelled as natural numbers, byte strings as `List Nat`,
Python dictionaries as insertion-ordered association lists.
-/

namespace Cwdbg

/-! ## SLIP framing (src/host/server.py) -/

def SLIP_END : Nat := 0xc0
def SLIP_ESCAPED_END : Nat := 0xdc
def SLIP_ESC : Nat := 0xdb
def SLIP_ESCAPED_ESC : Nat := 0xdd

/-- Python `bytes.replace` with a one-byte pattern: every occurrence of
`pat` is replaced by `rep`, scanning left to right. -/
def replaceByte (pat : Nat) (rep : List Nat) : List Nat → List Nat
  | [] => []
  | b :: rest => (if b = pat then rep else [b]) ++ replaceByte pat rep rest

/-- Python `bytes.replace` with a two-byte pattern `p1 p2`: occurrences are
found left to right and do not overlap. -/
def replacePair (p1 p2 : Nat) (rep : List Nat) : List Nat → List Nat
  | [] => []
  | [b] => [b]
  | b1 :: b2 :: rest =>
    if b1 = p1 ∧ b2 = p2 then rep ++ replacePair p1 p2 rep rest
    else b1 :: replacePair p1 p2 rep (b2 :: rest)

/-- The SLIP encoding performed by `ServerConnection.send_message`
(server.py lines 99-102) before the end-of-frame marker is appended:
first `0xDB -> 0xDB 0xDD`, then `0xC0 -> 0xDB 0xDC`. -/
def slipEncodeBody (buffer : List Nat) : List Nat :=
  replaceByte SLIP_END [SLIP_ESC, SLIP_ESCAPED_END]
    (replaceByte SLIP_ESC [SLIP_ESC, SLIP_ESCAPED_ESC] buffer)

/-- The full frame sent by `ServerConnection.send_message`: the SLIP-encoded
buffer followed by the `0xC0` end-of-frame marker. -/
def slipEncode (buffer : List Nat) : List Nat :=
  slipEncodeBody buffer ++ [SLIP_END]

/-- The SLIP decoding performed by `ServerConnection.recv_message`
(server.py lines 128-129): first `0xDB 0xDC -> 0xC0`, then
`0xDB 0xDD -> 0xDB`. -/
def slipDecodeBody (buffer : List Nat) : List Nat :=
  replacePair SLIP_ESC SLIP_ESCAPED_ESC [SLIP_ESC]
    (replacePair SLIP_ESC SLIP_ESCAPED_END [SLIP_END] buffer)

/-- Per-byte view of the SLIP encoding: what a single payload byte becomes
in the encoded frame. -/
def slipEncChar (b : Nat) : List Nat :=
  if b = SLIP_ESC then [SLIP_ESC, SLIP_ESCAPED_ESC]
  else if b = SLIP_END then [SLIP_ESC, SLIP_ESCAPED_END]
  else [b]

/-- Intermediate per-byte view after the first receive-side substitution
(`0xDB 0xDC -> 0xC0`) has been applied to an encoded frame. -/
def slipHalfDecChar (b : Nat) : List Nat :=
  if b = SLIP_ESC then [SLIP_ESC, SLIP_ESCAPED_ESC]
  else if b = SLIP_END then [SLIP_END]
  else [b]

theorem replaceByte_append (pat : Nat) (rep : List Nat) (l₁ l₂ : List Nat) :
    replaceByte pat rep (l₁ ++ l₂) = replaceByte pat rep l₁ ++ replaceByte pat rep l₂ := by
  induction l₁ with
  | nil => rfl
  | cons b rest ih => simp [replaceByte, ih]

theorem slipEncodeBody_nil : slipEncodeBody [] = [] := rfl

theorem slipEncodeBody_cons (b : Nat) (l : List Nat) :
    slipEncodeBody (b :: l) = slipEncChar b ++ slipEncodeBody l := by
  rcases eq_or_ne b SLIP_ESC with hb | hb
  · subst hb
    simp [slipEncodeBody, replaceByte, slipEncChar, replaceByte_append, SLIP_ESC, SLIP_END,
      SLIP_ESCAPED_ESC]
  · rcases eq_or_ne b SLIP_END with hb' | hb'
    · subst hb'
      simp [slipEncodeBody, replaceByte, slipEncChar, replaceByte_append, SLIP_ESC, SLIP_END,
        SLIP_ESCAPED_END]
    · simp [slipEncodeBody, replaceByte, slipEncChar, replaceByte_append, hb, hb']

theorem slipEncodeBody_eq_flatMap (l : List Nat) :
    slipEncodeBody l = l.flatMap slipEncChar := by
  induction l with
  | nil => rfl
  | cons b rest ih => simp [slipEncodeBody_cons, ih]

theorem replacePair_cons_cons (p1 p2 : Nat) (rep : List Nat) (b1 b2 : Nat) (l : List Nat) :
    replacePair p1 p2 rep (b1 :: b2 :: l) =
      if b1 = p1 ∧ b2 = p2 then rep ++ replacePair p1 p2 rep l
      else b1 :: replacePair p1 p2 rep (b2 :: l) := by
  simp [replacePair]

theorem replacePair_cons_ne (p1 p2 : Nat) (rep : List Nat) (b : Nat) (l : List Nat)
    (h : b ≠ p1) : replacePair p1 p2 rep (b :: l) = b :: replacePair p1 p2 rep l := by
  cases l with
  | nil => rfl
  | cons b' rest => simp [replacePair, h]

theorem replacePair_cons_pair (p1 p2 : Nat) (rep : List Nat) (l : List Nat) :
    replacePair p1 p2 rep (p1 :: p2 :: l) = rep ++ replacePair p1 p2 rep l := by
  simp [replacePair]

theorem slipDecodeStep1 (l : List Nat) :
    replacePair SLIP_ESC SLIP_ESCAPED_END [SLIP_END] (l.flatMap slipEncChar) =
      l.flatMap slipHalfDecChar := by
  induction l with
  | nil => rfl
  | cons b rest ih =>
    rw [List.flatMap_cons, List.flatMap_cons]
    rcases eq_or_ne b SLIP_ESC with hb | hb
    · subst hb
      rw [show slipEncChar SLIP_ESC = [SLIP_ESC, SLIP_ESCAPED_ESC] by rfl,
        show slipHalfDecChar SLIP_ESC = [SLIP_ESC, SLIP_ESCAPED_ESC] by rfl,
        List.cons_append, List.cons_append, List.nil_append,
        replacePair_cons_cons,
        if_neg (by decide : ¬(SLIP_ESC = SLIP_ESC ∧ SLIP_ESCAPED_ESC = SLIP_ESCAPED_END)),
        replacePair_cons_ne _ _ _ _ _ (by decide : SLIP_ESCAPED_ESC ≠ SLIP_ESC), ih]
      simp
    · rcases eq_or_ne b SLIP_END with hb' | hb'
      · subst hb'
        rw [show slipEncChar SLIP_END = [SLIP_ESC, SLIP_ESCAPED_END] by rfl,
          show slipHalfDecChar SLIP_END = [SLIP_END] by rfl,
          List.cons_append, List.cons_append, List.nil_append,
          replacePair_cons_pair, ih]
      · rw [show slipEncChar b = [b] by simp [slipEncChar, hb, hb'],
          show slipHalfDecChar b = [b] by simp [slipHalfDecChar, hb, hb'],
          List.cons_append, List.nil_append,
          replacePair_cons_ne _ _ _ _ _ hb, ih]
        simp

theorem slipDecodeStep2 (l : List Nat) :
    replacePair SLIP_ESC SLIP_ESCAPED_ESC [SLIP_ESC] (l.flatMap slipHalfDecChar) = l := by
  induction l with
  | nil => rfl
  | cons b rest ih =>
    rw [List.flatMap_cons]
    rcases eq_or_ne b SLIP_ESC with hb | hb
    · subst hb
      rw [show slipHalfDecChar SLIP_ESC = [SLIP_ESC, SLIP_ESCAPED_ESC] by rfl,
        List.cons_append, List.cons_append, List.nil_append,
        replacePair_cons_pair, ih]
      simp
    · rcases eq_or_ne b SLIP_END with hb' | hb'
      · subst hb'
        rw [show slipHalfDecChar SLIP_END = [SLIP_END] by rfl,
          List.cons_append, List.nil_append,
          replacePair_cons_ne _ _ _ _ _ (by decide : SLIP_END ≠ SLIP_ESC), ih]
      · rw [show slipHalfDecChar b = [b] by simp [slipHalfDecChar, hb, hb'],
          List.cons_append, List.nil_append,
          replacePair_cons_ne _ _ _ _ _ hb, ih]

/-- C1: applying the receive-side substitutions of `recv_message`
(first `0xDB 0xDC -> 0xC0`, then `0xDB 0xDD -> 0xDB`) to the send-side
SLIP encoding produced by `send_message` (first `0xDB -> 0xDB 0xDD`, then
`0xC0 -> 0xDB 0xDC`, end-of-frame marker `0xC0` appended and removed again
before decoding) returns the original byte string. -/
theorem slip_decode_encode_roundtrip (b : List Nat) :
    slipDecodeBody (slipEncodeBody b) = b ∧ slipEncode b = slipEncodeBody b ++ [SLIP_END] := by
  constructor
  · rw [slipEncodeBody_eq_flatMap, slipDecodeBody, slipDecodeStep1, slipDecodeStep2]
  · rfl

/-- C6 counterexample: the encoder maps `0xDB` to `0xDB 0xDD` (not to
`0xDB 0xDC` as claimed) and `0xC0` to `0xDB 0xDC` (not to `0xDB 0xDD`). -/
theorem slip_encode_escapes_counterexample :
    slipEncode [0xdb] = [0xdb, 0xdd, 0xc0] ∧ slipEncode [0xdb] ≠ [0xdb, 0xdc, 0xc0] ∧
    slipEncode [0xc0] = [0xdb, 0xdc, 0xc0] ∧ slipEncode [0xc0] ≠ [0xdb, 0xdd, 0xc0] := by
  decide

/-- C6 amended: the SLIP encoder applies `0xDB -> 0xDB 0xDD` first and
`0xC0 -> 0xDB 0xDC` second and then appends the end-of-frame marker `0xC0`;
in the encoded output every original `0xDB` byte appears as the pair
`0xDB 0xDD` and every original `0xC0` byte appears as the pair `0xDB 0xDC`. -/
theorem slip_encode_characterization (b : List Nat) :
    slipEncode b = b.flatMap slipEncChar ++ [SLIP_END] ∧
    slipEncChar SLIP_ESC = [SLIP_ESC, SLIP_ESCAPED_ESC] ∧
    slipEncChar SLIP_END = [SLIP_ESC, SLIP_ESCAPED_END] := by
  refine ⟨?_, by decide, by decide⟩
  rw [slipEncode, slipEncodeBody_eq_flatMap]

/-! ## Protocol message types and sequence numbers (src/host/server.py) -/

def MSG_INIT : Nat := 0
def MSG_ACK : Nat := 1
def MSG_NACK : Nat := 2
def MSG_RUN : Nat := 3
def MSG_QUIT : Nat := 4
def MSG_CONT : Nat := 5
def MSG_STEP : Nat := 6
def MSG_KILL : Nat := 7
def MSG_PEEK_MEM : Nat := 8
def MSG_POKE_MEM : Nat := 9
def MSG_SET_BPOINT : Nat := 10
def MSG_CLEAR_BPOINT : Nat := 11
def MSG_TARGET_STOPPED : Nat := 12
def MSG_GET_BASE_ADDRESS : Nat := 13

/-- One sequence-number-relevant event on a `ServerConnection`: sending a
message of a given type, or receiving a message of a given type that
carries a given sequence number. -/
inductive SeqEvent where
  | send (msgType : Nat)
  | recv (msgType : Nat) (seqnum : Nat)
deriving DecidableEq

/-- Effect of one event on `_next_seqnum`: `send_message` increments it
iff the sent type is ACK or NACK (server.py lines 111-112); `recv_message`
increments it iff the received type is ACK or NACK and the carried sequence
number equals `_next_seqnum`, and raises `ConnectionError` (modelled as
`none`) for an ACK/NACK with any other sequence number (lines 142-149). -/
def seqnumStep (nextSeqnum : Nat) : SeqEvent → Option Nat
  | .send t => if t = MSG_ACK ∨ t = MSG_NACK then some (nextSeqnum + 1) else some nextSeqnum
  | .recv t n =>
    if t = MSG_ACK ∨ t = MSG_NACK then
      if n = nextSeqnum then some (nextSeqnum + 1) else none
    else some nextSeqnum

/-- A session: the events applied in order to `_next_seqnum`, which
`ServerConnection.__init__` starts at 0. -/
def seqnumRun (events : List SeqEvent) (nextSeqnum : Nat) : Option Nat :=
  match events with
  | [] => some nextSeqnum
  | e :: rest =>
    match seqnumStep nextSeqnum e with
    | some s => seqnumRun rest s
    | none => none

/-- Whether an event is the sending or receiving of an ACK or NACK. -/
def isAckOrNack : SeqEvent → Bool
  | .send t => t == MSG_ACK || t == MSG_NACK
  | .recv t _ => t == MSG_ACK || t == MSG_NACK

/-- Number of ACK/NACK messages sent or received during a session. -/
def countAckNack (events : List SeqEvent) : Nat :=
  (events.filter isAckOrNack).length

theorem seqnumRun_eq_add_count (events : List SeqEvent) :
    ∀ s n, seqnumRun events s = some n → n = s + countAckNack events := by
  induction events with
  | nil =>
    intro s n h
    simp [seqnumRun, countAckNack] at h ⊢
    omega
  | cons e rest ih =>
    intro s n h
    cases e with
    | send t =>
      by_cases ht : t = MSG_ACK ∨ t = MSG_NACK
      · rw [seqnumRun, seqnumStep, if_pos ht] at h
        have := ih (s + 1) n h
        have hb : isAckOrNack (.send t) = true := by
          rcases ht with ht | ht <;> simp [isAckOrNack, ht]
        simp [countAckNack, List.filter, hb] at this ⊢
        omega
      · rw [seqnumRun, seqnumStep, if_neg ht] at h
        have := ih s n h
        have hb : isAckOrNack (.send t) = false := by
          simp [isAckOrNack]
          constructor
          · intro h1; exact absurd (Or.inl h1) ht
          · intro h1; exact absurd (Or.inr h1) ht
        simp [countAckNack, List.filter, hb] at this ⊢
        omega
    | recv t m =>
      by_cases ht : t = MSG_ACK ∨ t = MSG_NACK
      · rw [seqnumRun, seqnumStep, if_pos ht] at h
        by_cases hm : m = s
        · rw [if_pos hm] at h
          have := ih (s + 1) n h
          have hb : isAckOrNack (.recv t m) = true := by
            rcases ht with ht | ht <;> simp [isAckOrNack, ht]
          simp [countAckNack, List.filter, hb] at this ⊢
          omega
        · rw [if_neg hm] at h
          exact absurd h (by simp)
      · rw [seqnumRun, seqnumStep, if_neg ht] at h
        have := ih s n h
        have hb : isAckOrNack (.recv t m) = false := by
          simp [isAckOrNack]
          constructor
          · intro h1; exact absurd (Or.inl h1) ht
          · intro h1; exact absurd (Or.inr h1) ht
        simp [countAckNack, List.filter, hb] at this ⊢
        omega

/-- C2: `_next_seqnum` starts at 0 and is incremented exactly on ACK/NACK
messages sent or received (a received ACK/NACK with a wrong sequence number
raises an error instead), so a completed session of K ACK/NACK messages
ends with `_next_seqnum = K`; requests and TARGET_STOPPED frames never
increment it. -/
theorem next_seqnum_counts_acknack (events : List SeqEvent) (n : Nat)
    (h : seqnumRun events 0 = some n) :
    n = countAckNack events ∧
    (∀ s m t, (t = MSG_ACK ∨ t = MSG_NACK) → m ≠ s → seqnumStep s (.recv t m) = none) ∧
    (∀ s t, ¬(t = MSG_ACK ∨ t = MSG_NACK) →
      seqnumStep s (.send t) = some s ∧ seqnumStep s (.recv t 0) = some s) := by
  refine ⟨?_, ?_, ?_⟩
  · have := seqnumRun_eq_add_count events 0 n h
    omega
  · intro s m t ht hm
    rw [seqnumStep, if_pos ht, if_neg hm]
  · intro s t ht
    exact ⟨by rw [seqnumStep, if_neg ht], by rw [seqnumStep, if_neg ht]⟩

/-- Witness for C2 at a concrete session: send ACK, receive a
TARGET_STOPPED frame, receive a NACK with the matching sequence number:
two ACK/NACK messages, final `_next_seqnum = 2`. -/
theorem next_seqnum_counts_acknack_witness :
    (2 : Nat) =
      countAckNack [SeqEvent.send MSG_ACK, SeqEvent.recv MSG_TARGET_STOPPED 5,
        SeqEvent.recv MSG_NACK 1] :=
  (next_seqnum_counts_acknack
    [SeqEvent.send MSG_ACK, SeqEvent.recv MSG_TARGET_STOPPED 5, SeqEvent.recv MSG_NACK 1]
    2 (by decide)).1

/-! ## Byte-level model of `ServerConnection.recv_message` (server.py) -/

def MAX_FRAME_SIZE : Nat := 4096

inductive RecvError where
  | blocked
  | shortHeader
  | wrongSeqnum
deriving DecidableEq

/-- The read loop of `recv_message` (server.py lines 121-125): a local
buffer, created empty on every call, accumulates `conn.recv(MAX_FRAME_SIZE)`
chunks until it contains the `0xC0` end-of-frame marker. `stream` is the
byte sequence still pending on the socket; `none` models the call blocking
forever because no further bytes arrive. The fuel argument is
`stream.length + 1`, enough for every run since each `recv` consumes at
least one pending byte. -/
def recvLoopF : Nat → List Nat → List Nat → Option (List Nat × List Nat)
  | 0, _, _ => none
  | fuel + 1, stream, buffer =>
    if stream = [] then none
    else
      let buffer' := buffer ++ stream.take MAX_FRAME_SIZE
      let stream' := stream.drop MAX_FRAME_SIZE
      if buffer'.contains SLIP_END then some (buffer', stream')
      else recvLoopF fuel stream' buffer'

def recvLoop (stream : List Nat) : Option (List Nat × List Nat) :=
  recvLoopF (stream.length + 1) stream []

/-- `ServerConnection.recv_message` (server.py lines 117-153): read until a
`0xC0` appears in the per-call buffer, apply the two reverse SLIP
substitutions to the whole buffer, parse the six-byte header from its
start, slice out `length` bytes of payload, and check the sequence number
of an ACK/NACK. Returns the message, the updated `_next_seqnum` and the
bytes still pending on the socket; everything else in the buffer is
discarded when the call returns. -/
def recvMessage (nextSeqnum : Nat) (stream : List Nat) :
    Except RecvError ((Nat × List Nat) × Nat × List Nat) :=
  match recvLoop stream with
  | none => .error .blocked
  | some (buffer, stream') =>
    match slipDecodeBody buffer with
    | seqHi :: seqLo :: _ckHi :: _ckLo :: ty :: len :: rest =>
      let seqnum := seqHi * 256 + seqLo
      let data := rest.take len
      if ty = MSG_ACK ∨ ty = MSG_NACK then
        if seqnum = nextSeqnum then .ok ((ty, data), nextSeqnum + 1, stream')
        else .error .wrongSeqnum
      else .ok ((ty, data), nextSeqnum, stream')
    | _ => .error .shortHeader

/-- The byte string `send_message` frames (server.py lines 89-97): the
six-byte big-endian header (sequence number, checksum `0xDEAD`, type,
payload length) followed by the payload. -/
def protoMessageBytes (seqnum msgType : Nat) (data : List Nat) : List Nat :=
  [seqnum / 256 % 256, seqnum % 256, 0xde, 0xad, msgType % 256, data.length % 256] ++ data

/-- C7: `recv_message` keeps no state across calls. When the frames of two
messages arrive concatenated in one chunk, the first call returns the first
message and discards the entire residual tail, leaving nothing on the
socket, and the second call blocks with no data: the second frame is lost. -/
theorem recv_message_drops_concatenated_frame :
    recvMessage 0
        (slipEncode (protoMessageBytes 0 MSG_TARGET_STOPPED [1]) ++
          slipEncode (protoMessageBytes 0 MSG_TARGET_STOPPED [2])) =
      .ok ((MSG_TARGET_STOPPED, [1]), 0, []) ∧
    recvMessage 0 [] = .error .blocked :=
  ⟨rfl, rfl⟩

/-! ## TargetInfo (src/host/target.py) -/

def NUM_NEXT_INSTRUCTIONS : Nat := 8
def MAX_INSTR_BYTES : Nat := 8
def NUM_TOP_STACK_DWORDS : Nat := 8

structure Breakpoint where
  num : Nat
  address : Nat
  opcode : Nat
  hit_count : Nat
deriving DecidableEq

structure TaskContext where
  reg_sp : Nat
  exc_num : Nat
  reg_sr : Nat
  reg_pc : Nat
  reg_d : List Nat
  reg_a : List Nat
deriving DecidableEq

/-- The big-endian target snapshot (target.py lines 108-120);
`next_instr_bytes` is the 8 x 8 = 64 byte array of upcoming instruction
bytes. -/
structure TargetInfo where
  initial_pc : Nat
  initial_sp : Nat
  task_context : TaskContext
  target_state : Nat
  exit_code : Nat
  error_code : Nat
  next_instr_bytes : List Nat
  top_stack_dwords : List Nat
  bpoint : Breakpoint
deriving DecidableEq

/-- `struct.unpack('>H', b[i:i+2])`: big-endian u16 at byte offset `i`. -/
def u16At (l : List Nat) (i : Nat) : Nat :=
  l.getD i 0 * 256 + l.getD (i + 1) 0

/-- `struct.unpack('>I', b[i:i+4])`: big-endian u32 at byte offset `i`. -/
def u32At (l : List Nat) (i : Nat) : Nat :=
  ((l.getD i 0 * 256 + l.getD (i + 1) 0) * 256 + l.getD (i + 2) 0) * 256 + l.getD (i + 3) 0

/-- `struct.unpack('>h', b[i:i+2])`: big-endian signed 16-bit value at byte
offset `i`. -/
def i16At (l : List Nat) (i : Nat) : Int :=
  let u := u16At l i
  if u < 0x8000 then (u : Int) else (u : Int) - 0x10000

/-- `TargetInfo.next_instr_is_jsr` (target.py lines 123-129): the first
u16 of `next_instr_bytes` masked with `0xFFC0` equals `0x4E80`. -/
def TargetInfo.next_instr_is_jsr (ti : TargetInfo) : Bool :=
  (u16At ti.next_instr_bytes 0 &&& 0xffc0) == 0x4e80

/-- `TargetInfo.next_instr_is_rts` (target.py lines 132-137): the first
u16 of `next_instr_bytes` equals `0x4E75`. -/
def TargetInfo.next_instr_is_rts (ti : TargetInfo) : Bool :=
  u16At ti.next_instr_bytes 0 == 0x4e75

/-- `TargetInfo._next_instr_is_syscall` (target.py lines 303-308): the
first u16 of `next_instr_bytes` masked with `0xFFFF` equals `0x4EAE`. -/
def TargetInfo.next_instr_is_syscall (ti : TargetInfo) : Bool :=
  (u16At ti.next_instr_bytes 0 &&& 0xffff) == 0x4eae

/-- `TargetInfo._get_syscall_offset` (target.py lines 311-314): the
absolute value of the signed 16-bit displacement at bytes 2..4 of
`next_instr_bytes`. -/
def TargetInfo.get_syscall_offset (ti : TargetInfo) : Int :=
  ((i16At ti.next_instr_bytes 2).natAbs : Int)

/-- A concrete snapshot whose next instruction is `JSR -2(A6)`:
`next_instr_bytes` starts `4E AE FF FE`, a system call with displacement
-2. -/
def tiSyscallNeg : TargetInfo :=
  { initial_pc := 0
    initial_sp := 0
    task_context :=
      { reg_sp := 0, exc_num := 0, reg_sr := 0, reg_pc := 0,
        reg_d := List.replicate 8 0, reg_a := List.replicate 7 0 }
    target_state := 0
    exit_code := 0
    error_code := 0
    next_instr_bytes := [0x4e, 0xae, 0xff, 0xfe] ++ List.replicate 60 0
    top_stack_dwords := List.replicate 8 0
    bpoint := { num := 0, address := 0, opcode := 0, hit_count := 0 } }

/-- C5 counterexample: for a `JSR -2(A6)` (bytes `4E AE FF FE`) the signed
16-bit displacement at bytes 2..4 is -2, but `_get_syscall_offset` returns
its absolute value 2, so the extracted offset does not equal the signed
displacement. -/
theorem syscall_offset_counterexample :
    tiSyscallNeg.next_instr_is_syscall = true ∧
    i16At tiSyscallNeg.next_instr_bytes 2 = -2 ∧
    tiSyscallNeg.get_syscall_offset = 2 ∧
    tiSyscallNeg.get_syscall_offset ≠ i16At tiSyscallNeg.next_instr_bytes 2 := by
  refine ⟨by decide, by decide, by decide, by decide⟩

/-- C5 amended: every first instruction word `w` with
`(w &&& 0xFFC0) = 0x4E80` is classified as JSR, the RTS classification
holds exactly for the word `0x4E75`, and a first word `0x4EAE` is
classified as a system call whose extracted offset is the absolute value
of the signed 16-bit displacement at bytes 2..4 of `next_instr_bytes`. -/
theorem next_instr_classification (ti : TargetInfo) :
    ((u16At ti.next_instr_bytes 0 &&& 0xffc0) = 0x4e80 → ti.next_instr_is_jsr = true) ∧
    (ti.next_instr_is_rts = true ↔ u16At ti.next_instr_bytes 0 = 0x4e75) ∧
    (u16At ti.next_instr_bytes 0 = 0x4eae →
      ti.next_instr_is_syscall = true ∧
      ti.get_syscall_offset = ((i16At ti.next_instr_bytes 2).natAbs : Int)) := by
  refine ⟨?_, ?_, ?_⟩
  · intro h
    simp [TargetInfo.next_instr_is_jsr, h]
  · simp [TargetInfo.next_instr_is_rts]
  · intro h
    refine ⟨?_, rfl⟩
    simp [TargetInfo.next_instr_is_syscall, h]
    decide

/-- Witness for C5 at the concrete snapshot `tiSyscallNeg`
(first word `0x4EAE`, displacement -2). -/
theorem next_instr_classification_witness :
    tiSyscallNeg.next_instr_is_jsr = true ∧
    tiSyscallNeg.next_instr_is_syscall = true ∧
    tiSyscallNeg.get_syscall_offset = ((i16At tiSyscallNeg.next_instr_bytes 2).natAbs : Int) :=
  ⟨(next_instr_classification tiSyscallNeg).1 (by decide),
    ((next_instr_classification tiSyscallNeg).2.2 (by decide)).1,
    ((next_instr_classification tiSyscallNeg).2.2 (by decide)).2⟩

/-! ## ServerCommand.execute (src/host/server.py lines 161-194) -/

/-- Byte size of the packed `TargetInfo` ctypes structure (`_pack_ = 2`,
all fields at even offsets, no padding): 4+4+74+4+4+4+64+32+14 = 204. -/
def TARGET_INFO_SIZE : Nat := 204

/-- `TargetInfo.from_buffer`: deserialize the packed big-endian snapshot.
Field offsets follow the ctypes layout of target.py lines 96-120:
task context at 8 (registers d at 22, a at 54), target_state at 82,
next_instr_bytes at 94, top_stack_dwords at 158, bpoint at 190. -/
def TargetInfo.from_buffer (b : List Nat) : TargetInfo :=
  { initial_pc := u32At b 0
    initial_sp := u32At b 4
    task_context :=
      { reg_sp := u32At b 8
        exc_num := u32At b 12
        reg_sr := u16At b 16
        reg_pc := u32At b 18
        reg_d := (List.range 8).map (fun i => u32At b (22 + 4 * i))
        reg_a := (List.range 7).map (fun i => u32At b (54 + 4 * i)) }
    target_state := u32At b 82
    exit_code := u32At b 86
    error_code := u32At b 90
    next_instr_bytes := (b.drop 94).take 64
    top_stack_dwords := (List.range 8).map (fun i => u32At b (158 + 4 * i))
    bpoint :=
      { num := u32At b 190
        address := u32At b 194
        opcode := u16At b 198
        hit_count := u32At b 200 } }

inductive ExecError where
  | connectionError
  | serverCommandError (code : Nat)
  | indexError
  | valueError
deriving DecidableEq

/-- The observable result of a successful `ServerCommand.execute`: the
fields the command object ends up with, the messages sent on the
connection, and the scripted replies not consumed. -/
structure ExecOutcome where
  error_code : Int
  data : Option (List Nat)
  target_info : Option TargetInfo
  sent : List (Nat × Option (List Nat))
  repliesLeft : List (Nat × List Nat)
deriving DecidableEq

/-- `ServerCommand.execute` (server.py lines 168-194), with
`recv_message` modelled as delivering the scripted `replies` in order
(its sequence-number bookkeeping is modelled by `seqnumStep`): send the
request; the first reply must be ACK (store payload, error_code 0) or NACK
(raise `ServerCommandError` with the first payload byte; `IndexError` if
the payload is empty); any other type raises `ConnectionError`. Exactly
for RUN, STEP, CONT and KILL a second reply is consumed, which must be
TARGET_STOPPED: an ACK is sent for it and its payload is deserialized as
`TargetInfo` (ctypes `from_buffer` raises on fewer than
`TARGET_INFO_SIZE` bytes). -/
def ServerCommand.executeModel (msgType : Nat) (data : Option (List Nat))
    (replies : List (Nat × List Nat)) : Except ExecError ExecOutcome :=
  match replies with
  | [] => .error .connectionError
  | (t, d) :: rest =>
    if ¬(t = MSG_ACK ∨ t = MSG_NACK) then .error .connectionError
    else if t = MSG_ACK then
      if msgType = MSG_RUN ∨ msgType = MSG_STEP ∨ msgType = MSG_CONT ∨ msgType = MSG_KILL then
        match rest with
        | [] => .error .connectionError
        | (t2, d2) :: rest2 =>
          if t2 = MSG_TARGET_STOPPED then
            if TARGET_INFO_SIZE ≤ d2.length then
              .ok { error_code := 0, data := some d,
                    target_info := some (TargetInfo.from_buffer d2),
                    sent := [(msgType, data), (MSG_ACK, none)], repliesLeft := rest2 }
            else .error .valueError
          else .error .connectionError
      else
        .ok { error_code := 0, data := some d, target_info := none,
              sent := [(msgType, data)], repliesLeft := rest }
    else
      match d with
      | c :: _ => .error (.serverCommandError c)
      | [] => .error .indexError

/-- C3: `execute` sends the request and consumes exactly one reply that
must be ACK or NACK: any other type raises a connection-level protocol
error; NACK raises `ServerCommandError` carrying the first payload byte;
ACK stores the payload with error_code 0. Exactly for RUN, STEP, CONT and
KILL a second reply is consumed: a TARGET_STOPPED frame, which is ACKed
and whose payload is deserialized as `TargetInfo`; any other second type
raises a connection-level protocol error. -/
theorem server_command_execute_contract (msgType : Nat) (data : Option (List Nat)) :
    (∀ t d rest, ¬(t = MSG_ACK ∨ t = MSG_NACK) →
      ServerCommand.executeModel msgType data ((t, d) :: rest) = .error .connectionError) ∧
    (∀ c cs rest,
      ServerCommand.executeModel msgType data ((MSG_NACK, c :: cs) :: rest) =
        .error (.serverCommandError c)) ∧
    (¬(msgType = MSG_RUN ∨ msgType = MSG_STEP ∨ msgType = MSG_CONT ∨ msgType = MSG_KILL) →
      ∀ d rest,
        ServerCommand.executeModel msgType data ((MSG_ACK, d) :: rest) =
          .ok { error_code := 0, data := some d, target_info := none,
                sent := [(msgType, data)], repliesLeft := rest }) ∧
    ((msgType = MSG_RUN ∨ msgType = MSG_STEP ∨ msgType = MSG_CONT ∨ msgType = MSG_KILL) →
      ∀ d d2 rest,
        (TARGET_INFO_SIZE ≤ d2.length →
          ServerCommand.executeModel msgType data
              ((MSG_ACK, d) :: (MSG_TARGET_STOPPED, d2) :: rest) =
            .ok { error_code := 0, data := some d,
                  target_info := some (TargetInfo.from_buffer d2),
                  sent := [(msgType, data), (MSG_ACK, none)], repliesLeft := rest }) ∧
        (∀ t2, t2 ≠ MSG_TARGET_STOPPED →
          ServerCommand.executeModel msgType data ((MSG_ACK, d) :: (t2, d2) :: rest) =
            .error .connectionError) ∧
        (ServerCommand.executeModel msgType data [(MSG_ACK, d)] = .error .connectionError)) := by
  refine ⟨?_, ?_, ?_, ?_⟩
  · intro t d rest ht
    simp [ServerCommand.executeModel, ht]
  · intro c cs rest
    simp [ServerCommand.executeModel, MSG_ACK, MSG_NACK]
  · intro hm d rest
    simp [ServerCommand.executeModel, MSG_ACK, MSG_NACK, hm]
  · intro hm d d2 rest
    refine ⟨?_, ?_, ?_⟩
    · intro hlen
      simp [ServerCommand.executeModel, MSG_ACK, MSG_NACK, hm, hlen]
    · intro t2 ht2
      simp [ServerCommand.executeModel, MSG_ACK, MSG_NACK, hm, ht2]
    · simp [ServerCommand.executeModel, MSG_ACK, MSG_NACK, hm]

/-- Witness for C3: a RUN command over the scripted replies
[ACK with empty payload, TARGET_STOPPED with a 204-byte payload]
succeeds, deserializes the snapshot and sends the follow-up ACK; a
PEEK_MEM command over [ACK with payload [7]] consumes exactly that one
reply; a NACK reply with payload [3] fails with error code 3. -/
theorem server_command_execute_contract_witness :
    ServerCommand.executeModel MSG_RUN none
        [(MSG_ACK, []), (MSG_TARGET_STOPPED, List.replicate 204 0)] =
      .ok { error_code := 0, data := some [],
            target_info := some (TargetInfo.from_buffer (List.replicate 204 0)),
            sent := [(MSG_RUN, none), (MSG_ACK, none)], repliesLeft := [] } ∧
    ServerCommand.executeModel MSG_PEEK_MEM none [(MSG_ACK, [7])] =
      .ok { error_code := 0, data := some [7], target_info := none,
            sent := [(MSG_PEEK_MEM, none)], repliesLeft := [] } ∧
    ServerCommand.executeModel MSG_PEEK_MEM none [(MSG_NACK, [3])] =
      .error (.serverCommandError 3) :=
  ⟨((server_command_execute_contract MSG_RUN none).2.2.2 (by decide) [] (List.replicate 204 0)
      []).1 (by decide),
    (server_command_execute_contract MSG_PEEK_MEM none).2.2.1 (by decide) [7] [],
    (server_command_execute_contract MSG_PEEK_MEM none).2.1 3 [] []⟩

/-! ## Hunk executable reader (src/host/hunklib.py)

The file is modelled as the sequence of its big-endian 32-bit words
(Amiga hunk files are word streams). `_read_word` on an exhausted file
raises `EOFError`; `file.read(n)` returns the (possibly short) prefix
without an error. -/

def HUNK_UNIT : Nat := 999
def HUNK_NAME : Nat := 1000
def HUNK_CODE : Nat := 1001
def HUNK_DATA : Nat := 1002
def HUNK_BSS : Nat := 1003
def HUNK_RELOC32 : Nat := 1004
def HUNK_EXT : Nat := 1007
def HUNK_SYMBOL : Nat := 1008
def HUNK_DEBUG : Nat := 1009
def HUNK_END : Nat := 1010
def HUNK_HEADER : Nat := 1011

/-- Membership in the `BlockTypes` enum (hunklib.py lines 15-35); a word
outside this set makes `BlockTypes(block_type)` raise `ValueError` in the
log statement of `read_exe` line 211. -/
def isBlockTypeValue (bt : Nat) : Bool :=
  (999 ≤ bt && bt ≤ 1011) || (1013 ≤ bt && bt ≤ 1019)

/-- Membership in `READ_FUNC_BY_BLOCK_TYPE` (hunklib.py lines 189-200);
a recognized enum value outside this mapping raises `KeyError`. -/
def hasReadFunc (bt : Nat) : Bool :=
  bt = HUNK_HEADER || bt = HUNK_UNIT || bt = HUNK_NAME || bt = HUNK_CODE || bt = HUNK_DATA ||
    bt = HUNK_BSS || bt = HUNK_EXT || bt = HUNK_SYMBOL || bt = HUNK_RELOC32 || bt = HUNK_DEBUG

/-- Result of reading one block body: the content stored into the mapping
(`none` for readers that return nothing) together with the number of words
by which the file position advances, or an `EOFError`, or a crash (an
exception other than `EOFError`/`KeyError`, which `read_exe` re-raises). -/
inductive BodyResult where
  | ok (content : Option (List Nat)) (consumed : Nat)
  | eof
  | crash
deriving DecidableEq

/-- `_read_header_block` (hunklib.py lines 69-78): four header words, then
one size word per hunk from `first_hunk` to `last_hunk`. -/
def readHeaderBody (file : List Nat) : BodyResult :=
  match file with
  | _reserved :: _numHunks :: first :: last :: rest =>
    let cnt := last + 1 - first
    if rest.length < cnt then .eof else .ok none (4 + cnt)
  | _ => .eof

/-- `_read_code_block` (hunklib.py lines 90-93): a length word, then that
many words of code, returned as the block content; `file.read` may return
a short block at end of file without an error. -/
def readCodeBody (file : List Nat) : BodyResult :=
  match file with
  | [] => .eof
  | nwords :: rest => .ok (some (rest.take nwords)) (1 + nwords)

/-- `_read_data_block` (hunklib.py lines 96-99). -/
def readDataBody (file : List Nat) : BodyResult :=
  match file with
  | [] => .eof
  | nwords :: rest => .ok (some (rest.take nwords)) (1 + nwords)

/-- `_read_bss_block` (hunklib.py lines 102-104): only the length word is
consumed and nothing is returned. -/
def readBssBody (file : List Nat) : BodyResult :=
  match file with
  | [] => .eof
  | _nwords :: _rest => .ok none 1

/-- `_read_ext_block` (hunklib.py lines 107-129): records terminated by a
zero word; a definition (symbol type 1, 2 or 3) carries one value word
after the name, references (types 129, 131, 132) a count word and that
many words; any other symbol type raises `ValueError`. -/
def readExtBody (file : List Nat) : BodyResult :=
  match file with
  | [] => .eof
  | typeLen :: rest =>
    if typeLen = 0 then .ok none 1
    else
      let nameWords := typeLen &&& 0xffffff
      let symType := typeLen >>> 24
      if symType = 1 ∨ symType = 2 ∨ symType = 3 then
        match h : rest.drop nameWords with
        | [] => .eof
        | _value :: rest₂ =>
          match readExtBody rest₂ with
          | .ok c k => .ok c (1 + nameWords + 1 + k)
          | r => r
      else if symType = 129 ∨ symType = 131 ∨ symType = 132 then
        match h : rest.drop nameWords with
        | [] => .eof
        | nrefs :: rest₂ =>
          if rest₂.length < nrefs then .eof
          else
            match readExtBody (rest₂.drop nrefs) with
            | .ok c k => .ok c (1 + nameWords + 1 + nrefs + k)
            | r => r
      else .crash
termination_by file.length
decreasing_by
  · have h2 := congrArg List.length h
    simp at h2
    simp only [List.length_cons]
    omega
  · have h2 := congrArg List.length h
    simp at h2
    simp only [List.length_cons, List.length_drop]
    omega

/-- `_read_symbol_block` (hunklib.py lines 132-140): (name, value) pairs
terminated by a zero word. -/
def readSymbolBody (file : List Nat) : BodyResult :=
  match file with
  | [] => .eof
  | nwords :: rest =>
    if nwords = 0 then .ok none 1
    else
      match h : rest.drop nwords with
      | [] => .eof
      | _symVal :: rest₂ =>
        match readSymbolBody rest₂ with
        | .ok c k => .ok c (1 + nwords + 1 + k)
        | r => r
termination_by file.length
decreasing_by
  have h2 := congrArg List.length h
  simp at h2
  simp only [List.length_cons]
  omega

/-- `_read_reloc32_block` (hunklib.py lines 143-152): relocation groups
`(count, referenced hunk, count offsets)` terminated by a zero word. -/
def readReloc32Body (file : List Nat) : BodyResult :=
  match file with
  | [] => .eof
  | noffsets :: rest =>
    if noffsets = 0 then .ok none 1
    else
      match rest with
      | [] => .eof
      | _refHnum :: rest₁ =>
        if rest₁.length < noffsets then .eof
        else
          match readReloc32Body (rest₁.drop noffsets) with
          | .ok c k => .ok c (1 + 1 + noffsets + k)
          | r => r
termination_by file.length
decreasing_by
  simp only [List.length_cons, List.length_drop]
  omega

/-- `_read_debug_block` (hunklib.py lines 155-186): a length word and that
many words of payload. If the payload bytes 4..8 spell `"LINE"` the LINE
branch is taken, which crashes on its malformed `unpack('>L')` call;
otherwise the payload is returned as-is (STABS data). -/
def readDebugBody (file : List Nat) : BodyResult :=
  match file with
  | [] => .eof
  | nwords :: rest =>
    let data := rest.take nwords
    if data.getD 1 0 = 0x4c494e45 then .crash
    else .ok (some data) (1 + nwords)

/-- `_read_unit_block` / `_read_name_block` (hunklib.py lines 81-87) call
`_read_string` without its required `nchars` argument and raise
`TypeError`. -/
def readUnitOrNameBody (_file : List Nat) : BodyResult := .crash

/-- Dispatch through `READ_FUNC_BY_BLOCK_TYPE` (hunklib.py lines 189-200);
only invoked for block types present in that mapping. -/
def readBlockBody (bt : Nat) (file : List Nat) : BodyResult :=
  if bt = HUNK_HEADER then readHeaderBody file
  else if bt = HUNK_UNIT then readUnitOrNameBody file
  else if bt = HUNK_NAME then readUnitOrNameBody file
  else if bt = HUNK_CODE then readCodeBody file
  else if bt = HUNK_DATA then readDataBody file
  else if bt = HUNK_BSS then readBssBody file
  else if bt = HUNK_EXT then readExtBody file
  else if bt = HUNK_SYMBOL then readSymbolBody file
  else if bt = HUNK_RELOC32 then readReloc32Body file
  else readDebugBody file

/-- Python dict assignment `d[k] = v`: update in place when the key is
present, append otherwise (Python dicts preserve insertion order). -/
def dictSet {α β : Type} [DecidableEq α] (k : α) (v : β) : List (α × β) → List (α × β)
  | [] => [(k, v)]
  | (k', v') :: rest => if k' = k then (k, v) :: rest else (k', v') :: dictSet k v rest

/-- Python dict lookup `d[k]` (`none` models `KeyError` / `k not in d`). -/
def dictGet {α β : Type} [DecidableEq α] (k : α) : List (α × β) → Option β
  | [] => none
  | (k', v') :: rest => if k' = k then some v' else dictGet k rest

/-- How a `read_exe` run ends: `clean` (EOF right after a `HUNK_END`),
`truncated` (EOF elsewhere: the truncation error is logged and the blocks
collected so far are still returned), `unknownBlockError` (`KeyError`:
enum value without a read function; also returns the collected blocks),
`crash` (any other exception propagates; nothing is returned). -/
inductive ExeOutcome where
  | clean
  | truncated
  | unknownBlockError
  | crash
deriving DecidableEq

structure ExeResult where
  outcome : ExeOutcome
  contentByType : List (Nat × Option (List Nat))
  lastBlockType : Option Nat
deriving DecidableEq

/-- The block loop of `read_exe` (hunklib.py lines 203-235). `lastType`
is the value of the `block_type` variable from the previous iteration
(`none` before the first header word is read: the EOF handler's reference
to `block_type` then raises `UnboundLocalError`, modelled as `crash`).
A word outside the `BlockTypes` enum crashes in the log call (line 211)
before the `HUNK_END` check; `HUNK_END` itself has no body; other
recognized types dispatch through `READ_FUNC_BY_BLOCK_TYPE`, store their
content under their type key, and an enum value without a read function
raises `KeyError`, which breaks the loop. -/
def readExeLoop (file : List Nat) (lastType : Option Nat)
    (acc : List (Nat × Option (List Nat))) : ExeResult :=
  match file with
  | [] =>
    match lastType with
    | some t => if t = HUNK_END then ⟨.clean, acc, some t⟩ else ⟨.truncated, acc, some t⟩
    | none => ⟨.crash, acc, none⟩
  | bt :: rest =>
    if isBlockTypeValue bt = false then ⟨.crash, acc, some bt⟩
    else if bt = HUNK_END then readExeLoop rest (some bt) acc
    else if hasReadFunc bt then
      match readBlockBody bt rest with
      | .ok content k => readExeLoop (rest.drop k) (some bt) (dictSet bt content acc)
      | .eof => ⟨.truncated, acc, some bt⟩
      | .crash => ⟨.crash, acc, some bt⟩
    else ⟨.unknownBlockError, acc, some bt⟩
termination_by file.length
decreasing_by
  · simp only [List.length_cons]
    omega
  · simp only [List.length_cons, List.length_drop]
    omega

/-- `read_exe` (hunklib.py lines 203-235) on the word sequence of an
executable file. -/
def read_exe (file : List Nat) : ExeResult :=
  readExeLoop file none []

/-- `get_debug_infos_from_exe` (hunklib.py lines 238-239):
`read_exe(fname)[BlockTypes.HUNK_DEBUG]`; `none` when `read_exe` raised
or when the mapping has no `HUNK_DEBUG` key (`KeyError`). -/
def get_debug_infos_from_exe (file : List Nat) : Option (Option (List Nat)) :=
  if (read_exe file).outcome = .crash then none
  else dictGet HUNK_DEBUG (read_exe file).contentByType

theorem readExeLoop_clean_iff (file : List Nat) (lastType : Option Nat)
    (acc : List (Nat × Option (List Nat))) :
    ((readExeLoop file lastType acc).outcome = .clean ∨
      (readExeLoop file lastType acc).outcome = .truncated) →
    ((readExeLoop file lastType acc).outcome = .clean ↔
      (readExeLoop file lastType acc).lastBlockType = some HUNK_END) := by
  induction file, lastType, acc using readExeLoop.induct with
  | case1 acc =>
    intro _
    rw [readExeLoop]
    simp
  | case2 acc t ht =>
    intro _
    rw [readExeLoop]
    simp [ht]
  | case3 acc =>
    intro h
    rw [readExeLoop] at h
    simp at h
  | case4 lastType acc bt rest hbt =>
    intro h
    rw [readExeLoop] at h
    simp [hbt] at h
  | case5 lastType acc rest hv ih =>
    intro h
    rw [readExeLoop] at h ⊢
    simp only [hv, if_false, if_pos rfl] at h ⊢
    exact ih h
  | case6 lastType acc bt rest hv hne hf content k hbody ih =>
    intro h
    rw [readExeLoop] at h ⊢
    simp only [hv, hne, hf, hbody, if_false, if_true] at h ⊢
    exact ih h
  | case7 lastType acc bt rest hv hne hf hbody =>
    intro _
    rw [readExeLoop]
    simp [hv, hne, hf, hbody, Option.some_inj]
  | case8 lastType acc bt rest hv hne hf hbody =>
    intro h
    rw [readExeLoop] at h
    simp [hv, hne, hf, hbody] at h
  | case9 lastType acc bt rest hv hne hf =>
    intro h
    rw [readExeLoop] at h
    simp [hv, hne, hf] at h

/-- C9: whenever a `read_exe` run ends at end-of-file (outcome `clean` or
`truncated`), it ends cleanly if and only if the last block-type word read
was `HUNK_END`; end-of-file after any other block yields the truncation
error (which still returns the collected blocks). -/
theorem read_exe_clean_iff_last_end (file : List Nat)
    (h : (read_exe file).outcome = .clean ∨ (read_exe file).outcome = .truncated) :
    ((read_exe file).outcome = .clean ↔ (read_exe file).lastBlockType = some HUNK_END) :=
  readExeLoop_clean_iff file none [] h

theorem readExeLoop_end_step (rest : List Nat) (lt : Option Nat)
    (acc : List (Nat × Option (List Nat))) :
    readExeLoop (HUNK_END :: rest) lt acc = readExeLoop rest (some HUNK_END) acc := by
  rw [readExeLoop]
  norm_num [isBlockTypeValue, HUNK_END]

theorem readExeLoop_nil_end (acc : List (Nat × Option (List Nat))) :
    readExeLoop [] (some HUNK_END) acc = ⟨.clean, acc, some HUNK_END⟩ := by
  rw [readExeLoop, if_pos rfl]

/-- Witness for C9: the file consisting of a single `HUNK_END` word parses
cleanly, and the equivalence holds for it. -/
theorem read_exe_clean_iff_last_end_witness :
    ((read_exe [HUNK_END]).outcome = .clean ↔
      (read_exe [HUNK_END]).lastBlockType = some HUNK_END) :=
  read_exe_clean_iff_last_end [HUNK_END]
    (Or.inl (by rw [read_exe, readExeLoop_end_step, readExeLoop_nil_end]))

theorem readBlockBody_debug (d r : List Nat) (hd : d.getD 1 0 ≠ 0x4c494e45) :
    readBlockBody HUNK_DEBUG (d.length :: (d ++ r)) = .ok (some d) (1 + d.length) := by
  rw [show readBlockBody HUNK_DEBUG (d.length :: (d ++ r)) =
    readDebugBody (d.length :: (d ++ r)) by norm_num [readBlockBody, HUNK_HEADER, HUNK_UNIT,
      HUNK_NAME, HUNK_CODE, HUNK_DATA, HUNK_BSS, HUNK_EXT, HUNK_SYMBOL, HUNK_RELOC32, HUNK_DEBUG]]
  rw [readDebugBody]
  simp only [List.take_left]
  rw [if_neg hd]

theorem readExeLoop_debug_step (d r : List Nat) (lt : Option Nat)
    (acc : List (Nat × Option (List Nat))) (hd : d.getD 1 0 ≠ 0x4c494e45) :
    readExeLoop (HUNK_DEBUG :: d.length :: (d ++ r)) lt acc =
      readExeLoop r (some HUNK_DEBUG) (dictSet HUNK_DEBUG (some d) acc) := by
  have hdrop : (d.length :: (d ++ r)).drop (1 + d.length) = r := by
    rw [Nat.add_comm, List.drop_succ_cons, List.drop_left]
  rw [readExeLoop]
  rw [if_neg (by decide : ¬(isBlockTypeValue HUNK_DEBUG = false)),
    if_neg (by decide : ¬(HUNK_DEBUG = HUNK_END)),
    if_pos (by decide : hasReadFunc HUNK_DEBUG = true)]
  simp only [readBlockBody_debug d r hd, hdrop]

/-- C10: `read_exe` keys its result mapping by block type and a later
block of a type overwrites an earlier one: for an executable with two
`HUNK_DEBUG` blocks (in two hunks), the returned mapping holds only the
payload of the second, and `get_debug_infos_from_exe` returns exactly
that payload. -/
theorem read_exe_last_debug_wins (d1 d2 : List Nat)
    (h1 : d1.getD 1 0 ≠ 0x4c494e45) (h2 : d2.getD 1 0 ≠ 0x4c494e45) :
    read_exe (HUNK_DEBUG :: d1.length ::
        (d1 ++ HUNK_END :: HUNK_DEBUG :: d2.length :: (d2 ++ [HUNK_END]))) =
      ⟨.clean, [(HUNK_DEBUG, some d2)], some HUNK_END⟩ ∧
    get_debug_infos_from_exe (HUNK_DEBUG :: d1.length ::
        (d1 ++ HUNK_END :: HUNK_DEBUG :: d2.length :: (d2 ++ [HUNK_END]))) =
      some (some d2) := by
  have hrun : read_exe (HUNK_DEBUG :: d1.length ::
      (d1 ++ HUNK_END :: HUNK_DEBUG :: d2.length :: (d2 ++ [HUNK_END]))) =
      ⟨.clean, [(HUNK_DEBUG, some d2)], some HUNK_END⟩ := by
    rw [read_exe, readExeLoop_debug_step d1 _ _ _ h1, readExeLoop_end_step,
      readExeLoop_debug_step d2 _ _ _ h2, readExeLoop_end_step, readExeLoop_nil_end]
    simp [dictSet, HUNK_DEBUG]
  refine ⟨hrun, ?_⟩
  rw [get_debug_infos_from_exe, hrun]
  simp [dictGet]

/-- Witness for C10 at concrete debug payloads `[7]` and `[8, 9]`. -/
theorem read_exe_last_debug_wins_witness :
    read_exe [HUNK_DEBUG, 1, 7, HUNK_END, HUNK_DEBUG, 2, 8, 9, HUNK_END] =
      ⟨.clean, [(HUNK_DEBUG, some [8, 9])], some HUNK_END⟩ ∧
    get_debug_infos_from_exe [HUNK_DEBUG, 1, 7, HUNK_END, HUNK_DEBUG, 2, 8, 9, HUNK_END] =
      some (some [8, 9]) :=
  read_exe_last_debug_wins [7] [8, 9] (by decide) (by decide)

/-! ## STABS decoder and program tree builder (src/host/stabslib.py) -/

def N_UNDF : Nat := 0x00
def N_GSYM : Nat := 0x20
def N_FUN : Nat := 0x24
def N_STSYM : Nat := 0x26
def N_LCSYM : Nat := 0x28
def N_RSYM : Nat := 0x40
def N_SLINE : Nat := 0x44
def N_SO : Nat := 0x64
def N_LSYM : Nat := 0x80
def N_PSYM : Nat := 0xa0
def N_LBRAC : Nat := 0xc0
def N_RBRAC : Nat := 0xe0

/-- One STABS record as the tree builder sees it: `type`, the resolved
string from the string table, `desc` and `value` (stabslib.py lines
90-97; the raw `offset` and `other` fields are not used by the builder). -/
structure Stab where
  type : Nat
  string : String
  desc : Nat
  value : Nat
deriving DecidableEq

/-- A `ProgramNode` (stabslib.py lines 100-108): type, name, type id,
start/end address, line number, ordered children. -/
inductive ProgramNode where
  | mk (type : Nat) (name : String) (typeid : String) (start_addr end_addr lineno : Nat)
      (children : List ProgramNode)

def ProgramNode.type : ProgramNode → Nat
  | .mk t _ _ _ _ _ _ => t

def ProgramNode.name : ProgramNode → String
  | .mk _ n _ _ _ _ _ => n

def ProgramNode.typeid : ProgramNode → String
  | .mk _ _ ti _ _ _ _ => ti

def ProgramNode.start_addr : ProgramNode → Nat
  | .mk _ _ _ s _ _ _ => s

def ProgramNode.end_addr : ProgramNode → Nat
  | .mk _ _ _ _ e _ _ => e

def ProgramNode.lineno : ProgramNode → Nat
  | .mk _ _ _ _ _ l _ => l

def ProgramNode.children : ProgramNode → List ProgramNode
  | .mk _ _ _ _ _ _ cs => cs

/-- `node.end_addr = v`. -/
def ProgramNode.withEndAddr : ProgramNode → Nat → ProgramNode
  | .mk t n ti s _ l cs, v => .mk t n ti s v l cs

/-- `node.children.extend(more)`. -/
def ProgramNode.addChildren : ProgramNode → List ProgramNode → ProgramNode
  | .mk t n ti s e l cs, more => .mk t n ti s e l (cs ++ more)

/-- Split a character list at the first `':'`. -/
def splitAtFirstColon : List Char → Option (List Char × List Char)
  | [] => none
  | c :: rest =>
    if c = ':' then some ([], rest)
    else
      match splitAtFirstColon rest with
      | some (a, b) => some (c :: a, b)
      | none => none

/-- Python `s.split(':', 1)` unpacked into `(symbol, typeid)`: everything
before the first colon and everything after it; `none` models the
`ValueError` raised by the unpacking when the string has no colon. -/
def splitTypeid (s : String) : Option (String × String) :=
  match splitAtFirstColon s.data with
  | some (a, b) => some (String.mk a, String.mk b)
  | none => none

/-- Python `s.endswith('/')`: the last character is a slash. -/
def endsWithSlash (s : String) : Bool :=
  s.data.getLast? == some '/'

/-- Python `f'{v:08x}'` for a `c_uint32` value. -/
def hex8 (n : Nat) : String :=
  String.mk (((List.range 8).reverse).map (fun i => Nat.digitChar (n / 16 ^ i % 16)))

/-- An entry of the builder's stab stack. `corrupt` models the tuple
`(stab, stab.string)` pushed by stabslib.py line 357 instead of a stab:
popping it and accessing `.type` raises `AttributeError`. -/
inductive StabEntry where
  | good (s : Stab)
  | corrupt (s : Stab)

/-- The mutable state of `ProgramTreeBuilder`: the stab stack (head =
next to pop), `_nodes_stack`, `_func_nodes_stack` and
`_addresses_by_lineno` (unit name -> lineno -> (start, end)). -/
structure BuilderState where
  stabs : List StabEntry
  nodesStack : List ProgramNode
  funcNodesStack : List ProgramNode
  addrsByLineno : List (String × List (Nat × (Nat × Nat)))

/-- The exceptions a build can raise: failed `assert`, attribute access
on `None` or on the corrupt tuple, unpacking a string without a colon,
a missing dict key, and the fuel-exhaustion artifact of the model (never
reached with the fuel `buildProgramTree` supplies to the runs analysed
here). `notImplementedError` is raised by
`get_addr_range_for_func_name`. -/
inductive BuildError where
  | assertionError
  | attributeError
  | valueError
  | keyError
  | notImplementedError
  | outOfFuel
deriving DecidableEq

/-- `ProgramTreeBuilder._build_subtree` (stabslib.py lines 323-463), one
recursive function covering both the `while` loop (each iteration is a
tail call with the loop-local variables `node`, `srcdir`, `prev_lineno`
threaded through) and the recursive calls for functions and scopes
(which start fresh with `node = None`, `srcdir = ''` and the keyword
arguments the source passes). -/
def buildSubtree : Nat → BuilderState → Option ProgramNode → Option String → Option Nat →
    Option Nat → String → Except BuildError (ProgramNode × BuilderState)
  | 0, _, _, _, _, _, _ => .error .outOfFuel
  | fuel + 1, st, node, currentCompUnit, currentFuncLineno, prevLineno, srcdir =>
    match st.stabs with
    | [] =>
      match node with
      | none => .error .attributeError
      | some n =>
        if n.type = N_SO then
          .ok (n.addChildren st.funcNodesStack, { st with funcNodesStack := [] })
        else .ok (n, st)
    | .corrupt _ :: _ => .error .attributeError
    | .good stab :: restStabs =>
      let st₁ : BuilderState := { st with stabs := restStabs }
      if stab.type = N_SO then
        match node with
        | none =>
          if endsWithSlash stab.string then
            buildSubtree fuel st₁ none currentCompUnit currentFuncLineno prevLineno stab.string
          else
            let cu := srcdir ++ stab.string
            buildSubtree fuel
              { st₁ with addrsByLineno := dictSet cu [] st₁.addrsByLineno }
              (some (.mk N_SO cu "" stab.value 0 0 []))
              (some cu) currentFuncLineno prevLineno srcdir
        | some n =>
          .ok (ProgramNode.mk n.type n.name n.typeid n.start_addr stab.value n.lineno
                (n.children ++ st₁.funcNodesStack),
              { st₁ with stabs := .corrupt stab :: st₁.stabs, funcNodesStack := [] })
      else if stab.type = N_GSYM ∨ stab.type = N_STSYM ∨ stab.type = N_LCSYM then
        match splitTypeid stab.string with
        | none => .error .valueError
        | some (symbol, typeid) =>
          match node with
          | none => .error .assertionError
          | some n =>
            buildSubtree fuel st₁
              (some (n.addChildren [.mk stab.type symbol typeid stab.value 0 0 []]))
              currentCompUnit currentFuncLineno prevLineno srcdir
      else if stab.type = N_LSYM ∨ stab.type = N_RSYM then
        match splitTypeid stab.string with
        | none => .error .valueError
        | some (symbol, typeid) =>
          buildSubtree fuel
            { st₁ with nodesStack :=
                st₁.nodesStack ++ [.mk stab.type symbol typeid stab.value 0 0 []] }
            node currentCompUnit currentFuncLineno prevLineno srcdir
      else if stab.type = N_PSYM then
        match splitTypeid stab.string with
        | none => .error .valueError
        | some (symbol, typeid) =>
          match node with
          | none => .error .assertionError
          | some n =>
            buildSubtree fuel st₁
              (some (n.addChildren [.mk stab.type symbol typeid stab.value 0 0 []]))
              currentCompUnit currentFuncLineno prevLineno srcdir
      else if stab.type = N_FUN then
        match node with
        | some n =>
          let st₂ : BuilderState := { st₁ with stabs := .good stab :: st₁.stabs }
          if n.type = N_FUN then
            .ok (n.withEndAddr stab.value, st₂)
          else if n.type = N_SO then
            match buildSubtree fuel st₂ none (some n.name) none prevLineno "" with
            | .error e => .error e
            | .ok (child, st₃) =>
              if child.type = N_FUN then
                buildSubtree fuel { st₃ with funcNodesStack := st₃.funcNodesStack ++ [child] }
                  (some n) currentCompUnit currentFuncLineno prevLineno srcdir
              else .error .assertionError
          else .error .assertionError
        | none =>
          match splitTypeid stab.string with
          | none => .error .valueError
          | some (symbol, _typeid) =>
            buildSubtree fuel { st₁ with nodesStack := [] }
              (some (.mk N_FUN symbol "" stab.value 0 stab.desc st₁.nodesStack))
              currentCompUnit currentFuncLineno prevLineno srcdir
      else if stab.type = N_SLINE then
        let st₂ : BuilderState := { st₁ with nodesStack :=
          st₁.nodesStack ++ [.mk N_SLINE "" "" stab.value 0 stab.desc []] }
        match currentCompUnit with
        | none => .error .assertionError
        | some cu =>
          let step1 : Except BuildError BuilderState :=
            match prevLineno with
            | some pl =>
              if pl < stab.desc then
                match dictGet cu st₂.addrsByLineno with
                | none => .error .keyError
                | some inner =>
                  match dictGet pl inner with
                  | none => .error .keyError
                  | some r =>
                    let inner' := dictSet pl (r.1, stab.value) inner
                    .ok { st₂ with addrsByLineno := dictSet cu inner' st₂.addrsByLineno }
              else .ok st₂
            | none => .ok st₂
          match step1 with
          | .error e => .error e
          | .ok st₃ =>
            match dictGet cu st₃.addrsByLineno with
            | none => .error .keyError
            | some inner =>
              if dictGet stab.desc inner = none then
                buildSubtree fuel
                  { st₃ with addrsByLineno :=
                      dictSet cu (dictSet stab.desc (stab.value, 0) inner) st₃.addrsByLineno }
                  node currentCompUnit currentFuncLineno (some stab.desc) srcdir
              else
                buildSubtree fuel st₃ node currentCompUnit currentFuncLineno prevLineno srcdir
      else if stab.type = N_LBRAC then
        match node with
        | some n =>
          let st₂ : BuilderState := { st₁ with stabs := .good stab :: st₁.stabs }
          match buildSubtree fuel st₂ none none (some n.lineno) none "" with
          | .error e => .error e
          | .ok (child, st₃) =>
            if child.type = N_LBRAC then
              buildSubtree fuel st₃ (some (n.addChildren [child]))
                currentCompUnit currentFuncLineno prevLineno srcdir
            else .error .assertionError
        | none =>
          let scopeNode : ProgramNode :=
            .mk N_LBRAC ("SCOPE@0x" ++ hex8 stab.value) "" stab.value 0 0 st₁.nodesStack
          let st₂ : BuilderState := { st₁ with nodesStack := [] }
          match currentFuncLineno with
          | none => .error .assertionError
          | some cfl =>
            match st₂.funcNodesStack with
            | f :: _ =>
              if f.lineno > cfl then
                buildSubtree fuel { st₂ with funcNodesStack := [] }
                  (some (scopeNode.addChildren st₂.funcNodesStack))
                  currentCompUnit currentFuncLineno prevLineno srcdir
              else
                buildSubtree fuel st₂ (some scopeNode)
                  currentCompUnit currentFuncLineno prevLineno srcdir
            | [] =>
              buildSubtree fuel st₂ (some scopeNode)
                currentCompUnit currentFuncLineno prevLineno srcdir
      else if stab.type = N_RBRAC then
        match node with
        | none => .error .attributeError
        | some n => .ok (n.withEndAddr stab.value, st₁)
      else .error .assertionError

/-- `ProgramTreeBuilder.build` (stabslib.py lines 303-312): call
`_build_subtree` for each compilation unit while stabs remain, collecting
the children of the root node. -/
def buildLoop : Nat → BuilderState → List ProgramNode →
    Except BuildError (List ProgramNode × BuilderState)
  | 0, _, _ => .error .outOfFuel
  | fuel + 1, st, children =>
    match st.stabs with
    | [] => .ok (children, st)
    | _ :: _ =>
      match buildSubtree fuel st none none none none "" with
      | .error e => .error e
      | .ok (child, st') => buildLoop fuel st' (children ++ [child])

/-- The recursion budget handed to a build: ample for every run analysed
in this development (each stab is popped at most a bounded number of
times). -/
def buildFuel (stabs : List Stab) : Nat :=
  8 * stabs.length + 16

/-- A `ProgramTreeBuilder` run (stabslib.py lines 296-320): filter out
the type-definition stabs (`N_LSYM` with value 0, diverted to the data
dictionary), then build. Returns the children of the root node
(the compilation units) and `_addresses_by_lineno`. -/
def buildProgramTree (stabs : List Stab) :
    Except BuildError (List ProgramNode × List (String × List (Nat × (Nat × Nat)))) :=
  let filtered := stabs.filter (fun s => ¬(s.type = N_LSYM ∧ s.value = 0))
  match buildLoop (buildFuel stabs) ⟨filtered.map .good, [], [], []⟩ [] with
  | .error e => .error e
  | .ok (children, st) => .ok (children, st.addrsByLineno)

/-- The scan of `get_lineno_for_addr` over one unit's
`{lineno: addr_range}` dict in insertion order: the first range with
`start <= addr < end` wins. -/
def scanRanges (ranges : List (Nat × (Nat × Nat))) (addr : Nat) : Option Nat :=
  match ranges with
  | [] => none
  | (l, (a, b)) :: rest => if a ≤ addr ∧ addr < b then some l else scanRanges rest addr

/-- `ProgramWithDebugInfo.get_lineno_for_addr` (stabslib.py lines
243-258): with `comp_unit` omitted it is inferred iff exactly one unit
exists (`ValueError` otherwise); an unknown unit yields `None`. -/
def get_lineno_for_addr (idx : List (String × List (Nat × (Nat × Nat)))) (addr : Nat)
    (compUnit : Option String) : Except BuildError (Option Nat) :=
  match compUnit with
  | some cu =>
    match dictGet cu idx with
    | some inner => .ok (scanRanges inner addr)
    | none => .ok none
  | none =>
    match idx with
    | [(_, inner)] => .ok (scanRanges inner addr)
    | _ => .error .valueError

/-- `ProgramWithDebugInfo.get_addr_range_for_lineno` (stabslib.py lines
213-222). -/
def get_addr_range_for_lineno (idx : List (String × List (Nat × (Nat × Nat)))) (lineno : Nat)
    (compUnit : Option String) : Except BuildError (Option (Nat × Nat)) :=
  match compUnit with
  | some cu =>
    match dictGet cu idx with
    | some inner => .ok (dictGet lineno inner)
    | none => .ok none
  | none =>
    match idx with
    | [(_, inner)] => .ok (dictGet lineno inner)
    | _ => .error .valueError

/-- A single compilation unit with three functions whose `N_SLINE`
records carry strictly increasing line numbers (1..6) and strictly
increasing addresses (10..60): each function's line records precede its
`N_FUN` stab, as the builder expects. -/
def funcUnitStabs : List Stab :=
  [⟨N_SO, "t.c", 0, 0⟩,
   ⟨N_SLINE, "", 1, 10⟩, ⟨N_SLINE, "", 2, 20⟩,
   ⟨N_FUN, "f:F1", 1, 10⟩,
   ⟨N_LBRAC, "", 0, 12⟩, ⟨N_RBRAC, "", 0, 18⟩,
   ⟨N_SLINE, "", 3, 30⟩, ⟨N_SLINE, "", 4, 40⟩,
   ⟨N_FUN, "g:F1", 3, 50⟩,
   ⟨N_LBRAC, "", 0, 52⟩, ⟨N_RBRAC, "", 0, 58⟩,
   ⟨N_SLINE, "", 5, 50⟩, ⟨N_SLINE, "", 6, 60⟩,
   ⟨N_FUN, "h:F1", 5, 70⟩,
   ⟨N_LBRAC, "", 0, 72⟩, ⟨N_RBRAC, "", 0, 78⟩]

/-- The line index the builder produces for `funcUnitStabs`: the
compilation-unit loop frame re-enters each `N_FUN` recursion with its own
stale `prev_lineno`, so line 2's range is re-closed at 50 across function
g's lines and line 4 keeps end 0 in the middle of the unit. -/
def funcUnitIndex : List (Nat × (Nat × Nat)) :=
  [(1, (10, 20)), (2, (20, 50)), (3, (30, 40)), (4, (40, 0)), (5, (50, 60)), (6, (60, 0))]

/-- C4 counterexample, two runs of the builder. (i) A unit whose two
`N_SLINE` records carry decreasing addresses (line 1 at 100, line 2 at
50) records the range `[100, 50)` for line 1 — violating "`a < b` or
`b == 0`" — and `get_lineno_for_addr` at the range's start address 100
finds no line instead of line 1. (ii) Even a fully monotone unit breaks
once it contains functions: on `funcUnitStabs` the stale `prev_lineno`
of the enclosing frame yields `funcUnitIndex`, where line 4 has end 0
although it is not the last line of the unit, and
`get_lineno_for_addr` at 30 — the start of line 3's range `[30, 40)`
with `b > 0` — returns line 2 instead of line 3. -/
theorem line_index_counterexample :
    (buildProgramTree [⟨N_SO, "test.c", 0, 0⟩, ⟨N_SLINE, "", 1, 100⟩, ⟨N_SLINE, "", 2, 50⟩] =
      .ok ([ProgramNode.mk N_SO "test.c" "" 0 0 0 []],
        [("test.c", [(1, (100, 50)), (2, (50, 0))])]) ∧
    ¬(100 < 50 ∨ (50 : Nat) = 0) ∧
    get_lineno_for_addr [("test.c", [(1, (100, 50)), (2, (50, 0))])] 100 none = .ok none) ∧
    ((buildProgramTree funcUnitStabs).toOption.map Prod.snd = some [("t.c", funcUnitIndex)] ∧
    (4, (40, 0)) ∈ funcUnitIndex.dropLast ∧
    (3, (30, 40)) ∈ funcUnitIndex ∧
    get_lineno_for_addr [("t.c", funcUnitIndex)] 30 none = .ok (some 2)) := by
  refine ⟨⟨by rfl, by decide, by rfl⟩, ⟨by rfl, by decide, by decide, by rfl⟩⟩

/-- The `N_SLINE` stab of one (line number, address) pair. -/
def slineStab (p : Nat × Nat) : Stab :=
  ⟨N_SLINE, "", p.1, p.2⟩

/-- The `ProgramNode` the builder pushes for one `N_SLINE` stab. -/
def lineNode (p : Nat × Nat) : ProgramNode :=
  .mk N_SLINE "" "" p.2 0 p.1 []

/-- Strict increase of both the line number and the address between two
line records. -/
def pairLt (p q : Nat × Nat) : Prop :=
  p.1 < q.1 ∧ p.2 < q.2

theorem pairLt_trans : Transitive pairLt := by
  intro p q r hpq hqr
  exact ⟨Nat.lt_trans hpq.1 hqr.1, Nat.lt_trans hpq.2 hqr.2⟩

/-- The per-unit line index that monotone consecutive `N_SLINE` records
produce: each line's range ends at the next line's start address, the
last line's end stays 0. -/
def mkRanges : List (Nat × Nat) → List (Nat × (Nat × Nat))
  | [] => []
  | [(l, a)] => [(l, (a, 0))]
  | (l, a) :: (l', a') :: rest => (l, (a, a')) :: mkRanges ((l', a') :: rest)

theorem mkRanges_cons_cons (l a l' a' : Nat) (rest : List (Nat × Nat)) :
    mkRanges ((l, a) :: (l', a') :: rest) = (l, (a, a')) :: mkRanges ((l', a') :: rest) := rfl

theorem dictGet_dictSet_ne {β : Type} (k k' : Nat) (v : β) (d : List (Nat × β)) (h : k ≠ k') :
    dictGet k (dictSet k' v d) = dictGet k d := by
  induction d with
  | nil => simp [dictGet, dictSet, Ne.symm h]
  | cons x rest ih =>
    obtain ⟨xk, xv⟩ := x
    by_cases hx : xk = k'
    · subst hx
      simp [dictGet, dictSet, Ne.symm h]
    · simp only [dictSet, if_neg hx]
      by_cases hxk : xk = k
      · subst hxk
        simp [dictGet]
      · simp [dictGet, hxk, ih]

theorem dictSet_append_of_get_none {β : Type} (k : Nat) (v : β) (d : List (Nat × β))
    (h : dictGet k d = none) : dictSet k v d = d ++ [(k, v)] := by
  induction d with
  | nil => rfl
  | cons x rest ih =>
    obtain ⟨xk, xv⟩ := x
    by_cases hx : xk = k
    · subst hx
      simp [dictGet] at h
    · simp only [dictGet, if_neg hx] at h
      simp [dictSet, hx, ih h]

theorem dictGet_mkRanges_none (k : Nat) (Q : List (Nat × Nat))
    (h : ∀ x ∈ Q, x.1 ≠ k) : dictGet k (mkRanges Q) = none := by
  induction Q with
  | nil => rfl
  | cons x rest ih =>
    obtain ⟨l, a⟩ := x
    cases rest with
    | nil =>
      have := h (l, a) (by simp)
      simp [mkRanges, dictGet, this]
    | cons y rest' =>
      obtain ⟨l', a'⟩ := y
      rw [mkRanges_cons_cons]
      have hl := h (l, a) (by simp)
      simp only [dictGet, if_neg hl]
      exact ih (fun x hx => h x (by simp [hx]))

theorem dictGet_mkRanges_last (P : List (Nat × Nat)) (pl pa : Nat)
    (h : ∀ x ∈ P, x.1 ≠ pl) :
    dictGet pl (mkRanges (P ++ [(pl, pa)])) = some (pa, 0) := by
  induction P with
  | nil => simp [mkRanges, dictGet]
  | cons x rest ih =>
    obtain ⟨l, a⟩ := x
    have hl := h (l, a) (by simp)
    cases rest with
    | nil =>
      simp only [List.cons_append, List.nil_append, mkRanges_cons_cons]
      simp [mkRanges, dictGet, hl]
    | cons y rest' =>
      obtain ⟨l', a'⟩ := y
      simp only [List.cons_append, mkRanges_cons_cons]
      simp only [dictGet, if_neg hl]
      exact ih (fun z hz => h z (by simp [hz]))

theorem mkRanges_append_close (P : List (Nat × Nat)) (pl pa l a : Nat)
    (h : ∀ x ∈ P, x.1 ≠ pl) :
    mkRanges (P ++ [(pl, pa), (l, a)]) =
      dictSet pl (pa, a) (mkRanges (P ++ [(pl, pa)])) ++ [(l, (a, 0))] := by
  induction P with
  | nil => simp [mkRanges, dictSet]
  | cons x rest ih =>
    obtain ⟨xl, xa⟩ := x
    have hl : xl ≠ pl := h (xl, xa) (by simp)
    have ih' := ih (fun z hz => h z (List.mem_cons_of_mem _ hz))
    cases rest with
    | nil => simp [mkRanges, dictSet, hl]
    | cons y rest' =>
      obtain ⟨yl, ya⟩ := y
      simp only [List.cons_append, mkRanges_cons_cons]
      simp only [List.cons_append, mkRanges_cons_cons] at ih'
      simp [dictSet, hl, ih']

theorem mkRanges_mem_start : ∀ (Q : List (Nat × Nat)) (p : Nat × (Nat × Nat)),
    p ∈ mkRanges Q → ∃ x ∈ Q, x.1 = p.1 ∧ x.2 = p.2.1 := by
  intro Q
  induction Q with
  | nil => intro p hp; cases hp
  | cons x rest ih =>
    obtain ⟨l, a⟩ := x
    cases rest with
    | nil =>
      intro p hp
      simp [mkRanges] at hp
      subst hp
      exact ⟨(l, a), by simp⟩
    | cons y rest' =>
      obtain ⟨l', a'⟩ := y
      intro p hp
      rw [mkRanges_cons_cons] at hp
      rcases List.mem_cons.mp hp with hp | hp
      · subst hp
        exact ⟨(l, a), by simp⟩
      · obtain ⟨z, hz, hz1, hz2⟩ := ih p hp
        exact ⟨z, List.mem_cons_of_mem _ hz, hz1, hz2⟩

theorem buildSubtree_nil_so (f : Nat) (ns fs : List ProgramNode)
    (abl : List (String × List (Nat × (Nat × Nat)))) (nd : ProgramNode) (hnd : nd.type = N_SO)
    (cc : Option String) (cfl prev : Option Nat) (srcdir : String) :
    buildSubtree (f + 1) ⟨[], ns, fs, abl⟩ (some nd) cc cfl prev srcdir =
      .ok (nd.addChildren fs, ⟨[], ns, [], abl⟩) := by
  simp [buildSubtree, hnd]

theorem buildSubtree_so_step (f : Nat) (fname : String) (d0 v0 : Nat) (rest : List StabEntry)
    (ns fs : List ProgramNode) (abl : List (String × List (Nat × (Nat × Nat))))
    (cc : Option String) (cfl prev : Option Nat) (srcdir : String)
    (hsl : endsWithSlash fname = false) :
    buildSubtree (f + 1) ⟨.good ⟨N_SO, fname, d0, v0⟩ :: rest, ns, fs, abl⟩ none cc cfl prev
        srcdir =
      buildSubtree f ⟨rest, ns, fs, dictSet (srcdir ++ fname) [] abl⟩
        (some (.mk N_SO (srcdir ++ fname) "" v0 0 0 [])) (some (srcdir ++ fname)) cfl prev
        srcdir := by
  simp [buildSubtree, hsl]

theorem buildSubtree_sline_none (f l a : Nat) (rest : List StabEntry)
    (ns fs : List ProgramNode) (cu : String) (d : List (Nat × (Nat × Nat)))
    (nd : ProgramNode) (cfl : Option Nat) (srcdir : String) :
    buildSubtree (f + 1) ⟨.good (slineStab (l, a)) :: rest, ns, fs, [(cu, d)]⟩ (some nd)
        (some cu) cfl none srcdir =
      (if dictGet l d = none then
        buildSubtree f ⟨rest, ns ++ [lineNode (l, a)], fs, [(cu, dictSet l (a, 0) d)]⟩
          (some nd) (some cu) cfl (some l) srcdir
      else
        buildSubtree f ⟨rest, ns ++ [lineNode (l, a)], fs, [(cu, d)]⟩ (some nd)
          (some cu) cfl none srcdir) := by
  simp [buildSubtree, slineStab, lineNode, N_SLINE, N_SO, N_GSYM, N_STSYM, N_LCSYM, N_LSYM,
    N_RSYM, N_PSYM, N_FUN, dictGet, dictSet]

theorem buildSubtree_sline_some (f pl pa pb l a : Nat) (rest : List StabEntry)
    (ns fs : List ProgramNode) (cu : String) (d : List (Nat × (Nat × Nat)))
    (nd : ProgramNode) (cfl : Option Nat) (srcdir : String)
    (hlt : pl < l) (hget : dictGet pl d = some (pa, pb)) :
    buildSubtree (f + 1) ⟨.good (slineStab (l, a)) :: rest, ns, fs, [(cu, d)]⟩ (some nd)
        (some cu) cfl (some pl) srcdir =
      (if dictGet l (dictSet pl (pa, a) d) = none then
        buildSubtree f ⟨rest, ns ++ [lineNode (l, a)], fs,
            [(cu, dictSet l (a, 0) (dictSet pl (pa, a) d))]⟩
          (some nd) (some cu) cfl (some l) srcdir
      else
        buildSubtree f ⟨rest, ns ++ [lineNode (l, a)], fs, [(cu, dictSet pl (pa, a) d)]⟩
          (some nd) (some cu) cfl (some pl) srcdir) := by
  simp [buildSubtree, slineStab, lineNode, N_SLINE, N_SO, N_GSYM, N_STSYM, N_LCSYM, N_LSYM,
    N_RSYM, N_PSYM, N_FUN, hlt, hget, dictGet, dictSet]

theorem buildSubtree_slines_sorted (rest : List (Nat × Nat)) :
    ∀ (P : List (Nat × Nat)) (pl pa f : Nat) (ns fs : List ProgramNode) (cu : String)
      (nd : ProgramNode) (cfl : Option Nat) (srcdir : String),
      rest.length < f → nd.type = N_SO →
      List.Pairwise pairLt (P ++ (pl, pa) :: rest) →
      buildSubtree f ⟨rest.map (fun p => .good (slineStab p)), ns, fs,
          [(cu, mkRanges (P ++ [(pl, pa)]))]⟩ (some nd) (some cu) cfl (some pl) srcdir =
        .ok (nd.addChildren fs,
          ⟨[], ns ++ rest.map lineNode, [], [(cu, mkRanges (P ++ (pl, pa) :: rest))]⟩) := by
  induction rest with
  | nil =>
    intro P pl pa f ns fs cu nd cfl srcdir hf hnd _
    cases f with
    | zero => omega
    | succ f' =>
      rw [show (([] : List (Nat × Nat)).map (fun p => StabEntry.good (slineStab p))) = []
          from rfl,
        buildSubtree_nil_so f' ns fs _ nd hnd]
      simp
  | cons q rest' ih =>
    obtain ⟨l, a⟩ := q
    intro P pl pa f ns fs cu nd cfl srcdir hf hnd hpair
    cases f with
    | zero => omega
    | succ f' =>
      obtain ⟨hP, hrest, hcross⟩ := List.pairwise_append.mp hpair
      have hheadrel : ∀ y ∈ (l, a) :: rest', pairLt (pl, pa) y :=
        (List.pairwise_cons.mp hrest).1
      have hlt : pl < l := (hheadrel (l, a) (by simp)).1
      have hPl : ∀ x ∈ P, x.1 ≠ pl := by
        intro x hx
        exact Nat.ne_of_lt (hcross x hx (pl, pa) (by simp)).1
      have hkeys_lt : ∀ x ∈ P ++ [(pl, pa)], x.1 < l := by
        intro x hx
        rcases List.mem_append.mp hx with hx | hx
        · exact (hcross x hx (l, a) (by simp)).1
        · simp at hx
          subst hx
          exact hlt
      have hget := dictGet_mkRanges_last P pl pa hPl
      rw [List.map_cons, buildSubtree_sline_some f' pl pa 0 l a _ ns fs cu _ nd cfl srcdir
        hlt hget]
      have habsent : dictGet l (dictSet pl (pa, a) (mkRanges (P ++ [(pl, pa)]))) = none := by
        rw [dictGet_dictSet_ne l pl _ _ (Nat.ne_of_gt hlt)]
        apply dictGet_mkRanges_none
        intro x hx
        exact Nat.ne_of_lt (hkeys_lt x hx)
      rw [if_pos habsent,
        dictSet_append_of_get_none l (a, 0) _ habsent,
        ← mkRanges_append_close P pl pa l a hPl]
      have harr : P ++ [(pl, pa), (l, a)] = (P ++ [(pl, pa)]) ++ [(l, a)] := by simp
      rw [harr]
      have hpair' : List.Pairwise pairLt ((P ++ [(pl, pa)]) ++ (l, a) :: rest') := by
        have : P ++ [(pl, pa)] ++ (l, a) :: rest' = P ++ (pl, pa) :: (l, a) :: rest' := by simp
        rw [this]
        exact hpair
      have := ih (P ++ [(pl, pa)]) l a f' (ns ++ [lineNode (l, a)]) fs cu nd cfl srcdir
        (by simpa using Nat.lt_of_succ_lt_succ hf) hnd hpair'
      rw [this]
      have harr2 : (P ++ [(pl, pa)]) ++ (l, a) :: rest' = P ++ (pl, pa) :: (l, a) :: rest' := by
        simp
      rw [harr2]
      simp

theorem buildSubtree_slines_from_start (pairs : List (Nat × Nat)) (f : Nat)
    (ns fs : List ProgramNode) (cu : String) (nd : ProgramNode) (cfl : Option Nat)
    (srcdir : String) (hne : pairs ≠ []) (hf : pairs.length < f) (hnd : nd.type = N_SO)
    (hpair : List.Pairwise pairLt pairs) :
    buildSubtree f ⟨pairs.map (fun p => .good (slineStab p)), ns, fs, [(cu, [])]⟩ (some nd)
        (some cu) cfl none srcdir =
      .ok (nd.addChildren fs, ⟨[], ns ++ pairs.map lineNode, [], [(cu, mkRanges pairs)]⟩) := by
  cases pairs with
  | nil => exact absurd rfl hne
  | cons q rest =>
    obtain ⟨l, a⟩ := q
    cases f with
    | zero => omega
    | succ f' =>
      rw [List.map_cons, buildSubtree_sline_none f' l a _ ns fs cu [] nd cfl srcdir,
        if_pos (by rfl)]
      have : dictSet l (a, 0) ([] : List (Nat × (Nat × Nat))) = mkRanges ([] ++ [(l, a)]) := rfl
      rw [this, buildSubtree_slines_sorted rest [] l a f' (ns ++ [lineNode (l, a)]) fs cu nd
        cfl srcdir (by simpa using Nat.lt_of_succ_lt_succ hf) hnd (by simpa using hpair)]
      simp

theorem mkRanges_wellformed : ∀ (Q : List (Nat × Nat)), List.Pairwise pairLt Q →
    ∀ p ∈ mkRanges Q, p.2.1 < p.2.2 ∨ p.2.2 = 0 := by
  intro Q
  induction Q with
  | nil => intro _ p hp; cases hp
  | cons x rest ih =>
    obtain ⟨l, a⟩ := x
    cases rest with
    | nil =>
      intro _ p hp
      simp [mkRanges] at hp
      subst hp
      right
      rfl
    | cons y rest' =>
      obtain ⟨l', a'⟩ := y
      intro hpair p hp
      rw [mkRanges_cons_cons] at hp
      rcases List.mem_cons.mp hp with hp | hp
      · subst hp
        left
        exact ((List.pairwise_cons.mp hpair).1 (l', a') (by simp)).2
      · exact ih (List.pairwise_cons.mp hpair).2 p hp

theorem mkRanges_zero_only_last : ∀ (Q : List (Nat × Nat)), List.Pairwise pairLt Q →
    ∀ p ∈ (mkRanges Q).dropLast, p.2.2 ≠ 0 := by
  intro Q
  induction Q with
  | nil => intro _ p hp; cases hp
  | cons x rest ih =>
    obtain ⟨l, a⟩ := x
    cases rest with
    | nil =>
      intro _ p hp
      simp [mkRanges] at hp
    | cons y rest' =>
      obtain ⟨l', a'⟩ := y
      intro hpair p hp
      rw [mkRanges_cons_cons] at hp
      have hM : mkRanges ((l', a') :: rest') ≠ [] := by
        cases rest' with
        | nil => simp [mkRanges]
        | cons z rest'' =>
          obtain ⟨zl, za⟩ := z
          rw [mkRanges_cons_cons]
          simp
      rw [List.dropLast_cons_of_ne_nil hM] at hp
      rcases List.mem_cons.mp hp with hp | hp
      · subst hp
        have ha : a < a' := ((List.pairwise_cons.mp hpair).1 (l', a') (by simp)).2
        intro h0
        simp at h0
        omega
      · exact ih (List.pairwise_cons.mp hpair).2 p (by simpa using hp)

theorem scanRanges_mkRanges : ∀ (Q : List (Nat × Nat)), List.Pairwise pairLt Q →
    ∀ p ∈ mkRanges Q, ∀ addr, p.2.1 ≤ addr → addr < p.2.2 →
      scanRanges (mkRanges Q) addr = some p.1 := by
  intro Q
  induction Q with
  | nil => intro _ p hp; cases hp
  | cons x rest ih =>
    obtain ⟨l, a⟩ := x
    cases rest with
    | nil =>
      intro _ p hp addr h1 h2
      simp [mkRanges] at hp
      subst hp
      simp at h2
    | cons y rest' =>
      obtain ⟨l', a'⟩ := y
      intro hpair p hp addr h1 h2
      rw [mkRanges_cons_cons] at hp ⊢
      rcases List.mem_cons.mp hp with hp | hp
      · subst hp
        rw [scanRanges, if_pos ⟨h1, h2⟩]
      · have hstart : a' ≤ p.2.1 := by
          obtain ⟨z, hz, _, hz2⟩ := mkRanges_mem_start _ p hp
          obtain ⟨z1, z2⟩ := z
          simp only [] at hz2
          rcases List.mem_cons.mp hz with hz | hz
          · obtain ⟨hzl, hza⟩ := Prod.mk.injEq .. ▸ hz
            omega
          · have hrel := (List.pairwise_cons.mp (List.pairwise_cons.mp hpair).2).1 (z1, z2) hz
            have ha2 : a' < z2 := hrel.2
            omega
        rw [scanRanges, if_neg (by omega)]
        exact ih (List.pairwise_cons.mp hpair).2 p hp addr h1 h2

instance : IsTrans (Nat × Nat) pairLt :=
  ⟨fun _ _ _ h1 h2 => pairLt_trans h1 h2⟩

theorem empty_string_append (s : String) : "" ++ s = s := by
  cases s
  rfl

/-- C4 amended: for a stab stream consisting of a single `N_SO` filename
record followed only by `N_SLINE` records — no function or scope records,
whose recursions would re-enter the unit-level loop with a stale
`prev_lineno` — with strictly increasing line numbers and strictly
increasing addresses, the builder records for each line the range from
its address to the next line's address, with end 0 exactly for the last
line; every range with `b > 0` satisfies `a < b`, and
`get_lineno_for_addr` returns the line number at both `a` and `b - 1`. -/
theorem line_index_monotone (fname : String) (v0 : Nat) (pairs : List (Nat × Nat))
    (hne : pairs ≠ []) (hsl : endsWithSlash fname = false)
    (hchain : List.Chain' pairLt pairs) :
    buildProgramTree (⟨N_SO, fname, 0, v0⟩ :: pairs.map slineStab) =
      .ok ([ProgramNode.mk N_SO fname "" v0 0 0 []], [(fname, mkRanges pairs)]) ∧
    (∀ p ∈ mkRanges pairs, p.2.1 < p.2.2 ∨ p.2.2 = 0) ∧
    (∀ p ∈ (mkRanges pairs).dropLast, p.2.2 ≠ 0) ∧
    (∀ p ∈ mkRanges pairs, 0 < p.2.2 →
      get_lineno_for_addr [(fname, mkRanges pairs)] p.2.1 none = .ok (some p.1) ∧
      get_lineno_for_addr [(fname, mkRanges pairs)] (p.2.2 - 1) none = .ok (some p.1)) := by
  have hpair : List.Pairwise pairLt pairs := List.chain'_iff_pairwise.mp hchain
  refine ⟨?_, mkRanges_wellformed pairs hpair, mkRanges_zero_only_last pairs hpair, ?_⟩
  · have hfilter : (Stab.mk N_SO fname 0 v0 :: pairs.map slineStab).filter
        (fun s => ¬(s.type = N_LSYM ∧ s.value = 0)) =
        Stab.mk N_SO fname 0 v0 :: pairs.map slineStab := by
      apply List.filter_eq_self.mpr
      intro a ha
      rcases List.mem_cons.mp ha with ha | ha
      · subst ha
        simp [N_SO, N_LSYM]
      · obtain ⟨q, _, hq⟩ := List.mem_map.mp ha
        subst hq
        simp [slineStab, N_SLINE, N_LSYM]
    have hmap : (Stab.mk N_SO fname 0 v0 :: pairs.map slineStab).map StabEntry.good =
        .good (Stab.mk N_SO fname 0 v0) :: pairs.map (fun p => .good (slineStab p)) := by
      rw [List.map_cons, List.map_map]
      rfl
    have hfuel : buildFuel (Stab.mk N_SO fname 0 v0 :: pairs.map slineStab) =
        (8 * pairs.length + 23) + 1 := by
      simp [buildFuel]
      omega
    have hsub := buildSubtree_so_step (8 * pairs.length + 22) fname 0 v0
      (pairs.map (fun p => .good (slineStab p))) [] [] [] none none none "" hsl
    rw [empty_string_append] at hsub
    have hrun := buildSubtree_slines_from_start pairs (8 * pairs.length + 22) [] []
      fname (.mk N_SO fname "" v0 0 0 []) none "" hne (by omega) rfl hpair
    have hall : buildSubtree ((8 * pairs.length + 22) + 1)
        ⟨.good (Stab.mk N_SO fname 0 v0) :: pairs.map (fun p => .good (slineStab p)),
          [], [], []⟩ none none none none "" =
        .ok (ProgramNode.mk N_SO fname "" v0 0 0 [],
          ⟨[], pairs.map lineNode, [], [(fname, mkRanges pairs)]⟩) := by
      rw [hsub]
      rw [show dictSet fname ([] : List (Nat × (Nat × Nat))) [] = [(fname, [])] from rfl]
      rw [hrun]
      rfl
    rw [buildProgramTree]
    simp only [hfilter, hmap, hfuel]
    rw [show ((8 * pairs.length + 23) + 1) = (8 * pairs.length + 22) + 1 + 1 from rfl]
    rw [buildLoop]
    simp only [hall]
    rw [buildLoop]
    simp
  · intro p hp hb
    have hwf := mkRanges_wellformed pairs hpair p hp
    have hab : p.2.1 < p.2.2 := by
      rcases hwf with h | h
      · exact h
      · omega
    have hs1 := scanRanges_mkRanges pairs hpair p hp p.2.1 (Nat.le_refl _) hab
    have hs2 := scanRanges_mkRanges pairs hpair p hp (p.2.2 - 1) (by omega) (by omega)
    constructor
    · rw [show get_lineno_for_addr [(fname, mkRanges pairs)] p.2.1 none =
        Except.ok (scanRanges (mkRanges pairs) p.2.1) from rfl, hs1]
    · rw [show get_lineno_for_addr [(fname, mkRanges pairs)] (p.2.2 - 1) none =
        Except.ok (scanRanges (mkRanges pairs) (p.2.2 - 1)) from rfl, hs2]

/-- Witness for C4 at a concrete monotone unit: lines 1 at 100 and 2 at
200 produce the ranges 1 -> [100, 200) and 2 -> [200, 0), and the lookup
at address 100 returns line 1. -/
theorem line_index_monotone_witness :
    buildProgramTree [⟨N_SO, "t.c", 0, 0⟩, slineStab (1, 100), slineStab (2, 200)] =
      .ok ([ProgramNode.mk N_SO "t.c" "" 0 0 0 []],
        [("t.c", mkRanges [(1, 100), (2, 200)])]) ∧
    get_lineno_for_addr [("t.c", mkRanges [(1, 100), (2, 200)])] 100 none = .ok (some 1) :=
  ⟨(line_index_monotone "t.c" 0 [(1, 100), (2, 200)] (by simp) (by decide)
      (by simp [List.chain'_cons, pairLt])).1,
    ((line_index_monotone "t.c" 0 [(1, 100), (2, 200)] (by simp) (by decide)
      (by simp [List.chain'_cons, pairLt])).2.2.2 (1, (100, 200))
      (by simp [mkRanges]) (by norm_num)).1⟩

/-! ## ProgramWithDebugInfo queries and the CLI break command
(src/host/stabslib.py lines 213-262, src/host/cli.py lines 456-498) -/

/-- The data `ProgramWithDebugInfo` holds after a build: the children of
the program tree's root (the compilation units) and
`_addresses_by_lineno`. -/
structure ProgramWithDebugInfo where
  programTree : List ProgramNode
  addressesByLineno : List (String × List (Nat × (Nat × Nat)))

/-- `ProgramWithDebugInfo.get_addr_range_for_func_name` (stabslib.py
lines 225-226): the body is `raise NotImplementedError`; no lookup is
performed for any name. -/
def ProgramWithDebugInfo.get_addr_range_for_func_name (_self : ProgramWithDebugInfo)
    (_name : String) : Except BuildError (Option (Nat × Nat)) :=
  .error .notImplementedError

def isHexChar (c : Char) : Bool :=
  c.isDigit || ('a' ≤ c && c ≤ 'f') || ('A' ≤ c && c ≤ 'F')

/-- `re.search(r'^0x[0-9a-fA-F]+$', location)` (cli.py line 474); the
Python `$` also matching before a trailing newline cannot trigger for
shell-split arguments. -/
def isHexLocation (s : String) : Bool :=
  match s.data with
  | '0' :: 'x' :: rest => !rest.isEmpty && rest.all isHexChar
  | _ => false

/-- `re.search('^\d+$', location)` (cli.py line 480). -/
def isDecimalLocation (s : String) : Bool :=
  !s.data.isEmpty && s.data.all Char.isDigit

/-- `re.search(r'^[a-zA-Z_]\w+$', location)` (cli.py line 482): a letter
or underscore followed by at least one word character. -/
def isIdentLocation (s : String) : Bool :=
  match s.data with
  | c :: rest => (c.isAlpha || c = '_') && !rest.isEmpty &&
      rest.all (fun d => d.isAlphanum || d = '_')
  | [] => false

def hexDigitVal (c : Char) : Nat :=
  if c.isDigit then c.toNat - '0'.toNat
  else if 'a' ≤ c && c ≤ 'f' then c.toNat - 'a'.toNat + 10
  else c.toNat - 'A'.toNat + 10

/-- `int(location, 16)` for a string matching the hex regex. -/
def hexValue (s : String) : Nat :=
  (s.data.drop 2).foldl (fun acc c => acc * 16 + hexDigitVal c) 0

/-- `int(location, 10)` for a string matching the decimal regex. -/
def decValue (s : String) : Nat :=
  s.data.foldl (fun acc c => acc * 10 + (c.toNat - '0'.toNat)) 0

/-- Result of the location-resolution part of `CliSetBreakpoint.execute`
(cli.py lines 473-492): the breakpoint offset that will be sent, a
user-visible message (the early tuple-return paths), or an uncaught
exception propagating out of `execute`. -/
inductive BreakResolution where
  | offset (n : Nat)
  | uiMessage (msg : String)
  | raised (e : BuildError)
deriving DecidableEq

/-- `CliSetBreakpoint.execute` up to the `SrvSetBreakpoint` call (cli.py
lines 473-492): a hex location is the offset itself; every other form
requires a loaded program; a decimal location goes through
`get_addr_range_for_lineno`, an identifier location through
`get_addr_range_for_func_name`; only `ValueError` is caught (as a
user-visible message), so `NotImplementedError` propagates; a returned
range contributes its start address as the offset. -/
def resolveBreakpointLocation (location : String)
    (program : Option ProgramWithDebugInfo) : BreakResolution :=
  if isHexLocation location then .offset (hexValue location)
  else
    match program with
    | none => .uiMessage "Program not loaded on host, source-level debugging not available"
    | some prog =>
      if isDecimalLocation location then
        match get_addr_range_for_lineno prog.addressesByLineno (decValue location) none with
        | .error .valueError =>
          .uiMessage ("Failed to find address for breakpoint location " ++ location)
        | .error e => .raised e
        | .ok (some r) => .offset r.1
        | .ok none => .uiMessage ("No address available for breakpoint location " ++ location)
      else if isIdentLocation location then
        match prog.get_addr_range_for_func_name location with
        | .error .valueError =>
          .uiMessage ("Failed to find address for breakpoint location " ++ location)
        | .error e => .raised e
        | .ok (some r) => .offset r.1
        | .ok none => .uiMessage ("No address available for breakpoint location " ++ location)
      else .uiMessage "Invalid format of breakpoint location"

/-- A loaded program whose single compilation unit contains the function
`main` with address range `[0x24, 0x50)`. -/
def progMain : ProgramWithDebugInfo :=
  { programTree := [.mk N_SO "test.c" "" 0 0 0 [.mk N_FUN "main" "" 0x24 0x50 3 []]],
    addressesByLineno := [("test.c", [(3, (0x24, 0x50))])] }

/-- C8: although the loaded program's tree contains the function `main`
with a recorded address range, `get_addr_range_for_func_name` raises
`NotImplementedError` for every program and name instead of performing
the lookup, and the CLI `break main` command propagates that exception
instead of obtaining the breakpoint offset. -/
theorem func_name_breakpoint_not_implemented :
    (∃ unit ∈ progMain.programTree, ∃ f ∈ unit.children,
      f.type = N_FUN ∧ f.name = "main" ∧ f.start_addr = 0x24 ∧ f.end_addr = 0x50) ∧
    (∀ (p : ProgramWithDebugInfo) (s : String),
      p.get_addr_range_for_func_name s = .error .notImplementedError) ∧
    resolveBreakpointLocation "main" (some progMain) = .raised .notImplementedError := by
  refine ⟨?_, fun p s => rfl, ?_⟩
  · refine ⟨ProgramNode.mk N_SO "test.c" "" 0 0 0 [.mk N_FUN "main" "" 0x24 0x50 3 []],
      by simp [progMain], ProgramNode.mk N_FUN "main" "" 0x24 0x50 3 [],
      by simp [ProgramNode.children], rfl, rfl, rfl, rfl⟩
  · rfl

end Cwdbg
